import Mathlib

/-!
Verification of the Brain compiler's code-generation subsystem (`src/codegen.rs`)
against its natural-language specification.

The development shallowly embeds the code generator: the AST consumed by
`CodeGenerator::generate`, the two read-only analyses (`EscapeAnalysis`,
purity inference), and the statement/expression lowerer `gen_node` with its
mutable generator state made explicit.  Rust `HashMap`/`HashSet` fields are
modelled as association lists / membership lists; the only places the source
ever *iterates* a `HashMap` (the struct-type table in `generate` and the
per-function variable map in the block-cleanup path of `gen_node`) take an
explicit iteration-order parameter, since Rust's `HashMap` iteration order is
not specified and differs between hasher instances.  `eprintln!` calls are
modelled by appending to a `diagnostics` list.  Emitted IR is modelled as the
list of emitted lines (the Rust code pushes `line + "\n"` onto one string).

The compiler is compiled for one host per build (`cfg!(target_os = ...)`);
this development models the Linux configuration, which is the default branch
of every `cfg!` in the source.
-/

namespace Brain

/-! ## AST data model (`parser::AstNode` as consumed by `codegen.rs`) -/

/-- Binary operators (`parser::BinOp`). -/
inductive BinOp where
  | Add | Sub | Mul | Div | Mod
  | Equal | NotEqual | LessThan | LessEqual | GreaterThan | GreaterEqual
  | And | Or | DotDot
deriving DecidableEq

/-- Unary operators (`parser::UnOp`). -/
inductive UnOp where
  | Not | Negate
deriving DecidableEq

/-- Function parameters (`parser::Parameter`): a name, a surface type (which
may itself carry a textual `&`/`&mut ` marker), and reference/mutability
flags. -/
structure Parameter where
  name : String
  param_type : String
  is_reference : Bool
  is_mutable : Bool
deriving DecidableEq

/-- Struct fields as carried by `AstNode::StructDef`. -/
structure StructField where
  name : String
  field_type : String
deriving DecidableEq

/-- Enum variants as carried by `AstNode::EnumDef`; codegen only reads the
variant name. -/
structure EnumVariant where
  name : String
deriving DecidableEq

/-- Match patterns (`parser::Pattern`). -/
inductive Pattern where
  | EnumPattern (enum_name : String) (variant : String) (binding : Option String)
  | NumberPattern (n : Int)
  | StringPattern (s : String)
  | Wildcard
  | Identifier (name : String)
deriving DecidableEq

mutual
/-- The AST (`parser::AstNode`), with the fields `codegen.rs` consumes.  A
mutual inductive family is used instead of nested `List`/`Option` so every
traversal below is plain structural recursion. -/
inductive AstNode where
  | Program (nodes : AstList)
  | FunctionDef (name : String) (params : List Parameter) (body : AstNode)
      (return_type : Option String) (exported : Bool)
  | StructDef (name : String) (fields : List StructField)
  | EnumDef (name : String) (variants : List EnumVariant)
  | LetBinding (name : String) (value : AstNode) (exported : Bool)
  | Assignment (name : String) (value : AstNode)
  | ArrayAssignment (array : String) (index : AstNode) (value : AstNode)
  | If (condition : AstNode) (then_block : AstNode) (else_block : AstOpt)
  | While (condition : AstNode) (body : AstNode)
  | For (var : String) (iterator : AstNode) (body : AstNode)
  | Match (value : AstNode) (arms : ArmList)
  | Block (stmts : AstList)
  | Return (value : AstOpt)
  | Break
  | Continue
  | BinaryOp (op : BinOp) (left : AstNode) (right : AstNode)
  | UnaryOp (op : UnOp) (operand : AstNode)
  | Call (name : String) (args : AstList)
  | MethodCall (object : AstNode) (method : String) (args : AstList)
  | MemberAccess (object : AstNode) (field : String)
  | Identifier (name : String)
  | Number (n : Int)
  | Boolean (b : Bool)
  | Character (c : Char)
  | StringLit (s : String)
  | ArrayLit (elems : AstList)
  | Index (array : AstNode) (index : AstNode)
  | StructInit (name : String) (fields : FieldList)
  | EnumValue (enum_name : String) (variant : String) (value : AstOpt)
  | Reference (expr : AstNode)
  | ExpressionStatement (expr : AstNode)
  | Import (path : String)
  | ArrayType (size : Nat)

/-- `Option AstNode`, inside the mutual family. -/
inductive AstOpt where
  | none
  | some (a : AstNode)

/-- `Vec<AstNode>`, inside the mutual family. -/
inductive AstList where
  | nil
  | cons (a : AstNode) (rest : AstList)

/-- `Vec<MatchArm>`: each arm is a pattern and a body. -/
inductive ArmList where
  | nil
  | cons (pattern : Pattern) (body : AstNode) (rest : ArmList)

/-- `Vec<(String, AstNode)>`: struct-initializer fields. -/
inductive FieldList where
  | nil
  | cons (name : String) (value : AstNode) (rest : FieldList)
end

/-- Convenience: build an `AstList` from a `List AstNode` (used only to write
concrete test programs). -/
def AstList.ofL : List AstNode → AstList
  | [] => .nil
  | a :: r => .cons a (AstList.ofL r)

/-! ## Small container helpers (Rust `HashMap` / `HashSet` modelled on lists) -/

/-- `HashMap::get` on an association list. -/
def assocGet {α : Type} (l : List (String × α)) (k : String) : Option α :=
  (l.find? (fun p => p.1 == k)).map (fun p => p.2)

/-- `HashMap::insert` on an association list (last write wins; the entry set,
not the order, is what the source ever depends on outside the two explicitly
order-parameterized iteration sites). -/
def assocInsert {α : Type} (l : List (String × α)) (k : String) (v : α) :
    List (String × α) :=
  (l.filter (fun p => !(p.1 == k))) ++ [(k, v)]

/-- `HashMap::contains_key`. -/
def assocContains {α : Type} (l : List (String × α)) (k : String) : Bool :=
  (assocGet l k).isSome

/-- `HashSet::insert`. -/
def setInsert (l : List String) (s : String) : List String :=
  if l.contains s then l else l ++ [s]

/-- Rust's `str::strip_prefix`-based helper `CodeGenerator::strip_ref_prefix`:
splits a textual `&mut `/`&` marker off a surface type, returning
`(is_ref, is_mut, inner)`.  (Renamed here; the source name is
`strip_ref_prefix`.) -/
def stripRefMarker (ty : String) : Bool × Bool × String :=
  if ty.startsWith "&mut " then (true, true, ty.drop 5)
  else if ty.startsWith "&" then (true, false, ty.drop 1)
  else (false, false, ty)

/-! ## Escape analysis (`struct EscapeAnalysis`) -/

namespace EscapeAnalysis

/-- The allowlist of callees in `EscapeAnalysis::visit` whose arguments are
not marked escaping (`safe_builtins`). -/
def safeBuiltins (name : String) : Bool :=
  match name with
  | "print" | "println" | "print_int" | "println_int" | "print_bool"
  | "println_bool" | "print_char" | "println_char" | "write_file"
  | "read_file" | "vec_len" | "vec_get" | "vec_push" | "vec_set"
  | "int_to_string" | "len" => true
  | _ => false

/-- `EscapeAnalysis::rough_type`. -/
def rough_type : AstNode → String
  | .StringLit _ => "string"
  | .Identifier _ => "unknown"
  | .BinaryOp _ left _ => rough_type left
  | _ => ""

/-- `EscapeAnalysis::is_heap_type`. -/
def is_heap_type (t : String) : Bool :=
  t == "string" || t == "Vec" || t == "unknown"

/-- `EscapeAnalysis::mark_escaping`: only identifiers (possibly under
reference expressions) are ever inserted into the escaping set. -/
def mark_escaping (es : List String) : AstNode → List String
  | .Identifier name => setInsert es name
  | .Reference inner => mark_escaping es inner
  | _ => es

mutual
/-- `EscapeAnalysis::visit`: the traversal that accumulates the escaping
set. -/
def visit (es : List String) : AstNode → List String
  | .Return (.some val) => visit (mark_escaping es val) val
  | .Call name args => visitArgs (safeBuiltins name) es args
  | .LetBinding _ value _ => visit es value
  | .Assignment _ value => visit es value
  | .Block stmts => visitList es stmts
  | .Program stmts => visitList es stmts
  | .If condition then_block else_block =>
      visitOpt (visit (visit es condition) then_block) else_block
  | .While condition body => visit (visit es condition) body
  | .For _ iterator body => visit (visit es iterator) body
  | .BinaryOp _ left right => visit (visit es left) right
  | .UnaryOp _ operand => visit es operand
  | .ExpressionStatement e => visit es e
  | .Match value arms => visitArms (visit es value) arms
  | .ArrayLit elems => visitList es elems
  | .StructInit _ fields => visitFields es fields
  | .Index array index => visit (visit es array) index
  | .Reference e => visit es e
  | .MemberAccess object _ => visit es object
  | .MethodCall object _ args => visitList (visit es object) args
  | _ => es

/-- Per-argument handling inside `AstNode::Call`: a conditional
`mark_escaping` (skipped for reference expressions and for safe builtins,
and applied only to arguments whose `rough_type` is heap-shaped) followed by
the recursive visit. -/
def visitArgs (safe : Bool) (es : List String) : AstList → List String
  | .nil => es
  | .cons arg rest =>
      let es :=
        match arg with
        | .Reference _ => es
        | _ =>
            if !safe then
              if is_heap_type (rough_type arg) then mark_escaping es arg else es
            else es
      visitArgs safe (visit es arg) rest

/-- Visit every node of a statement/expression list. -/
def visitList (es : List String) : AstList → List String
  | .nil => es
  | .cons s rest => visitList (visit es s) rest

/-- Visit an optional node. -/
def visitOpt (es : List String) : AstOpt → List String
  | .none => es
  | .some e => visit es e

/-- Visit every match-arm body (the scrutinee is visited by the caller). -/
def visitArms (es : List String) : ArmList → List String
  | .nil => es
  | .cons _ body rest => visitArms (visit es body) rest

/-- Visit every struct-initializer field value. -/
def visitFields (es : List String) : FieldList → List String
  | .nil => es
  | .cons _ v rest => visitFields (visit es v) rest
end

/-- `EscapeAnalysis::visit_body`: by-value parameters of pointer shape are
marked escaping up front, then the body is visited. -/
def visit_body (params : List Parameter) (body : AstNode) : List String :=
  let es := params.foldl
    (fun es p =>
      let r := stripRefMarker p.param_type
      if !r.1 && !p.is_reference then
        let inner := p.param_type
        if (inner == "string" || inner == "Vec")
            || (!(inner == "int" || inner == "bool" || inner == "char")
                && !(inner == "")) then
          setInsert es p.name
        else es
      else es)
    []
  visit es body

/-- `EscapeAnalysis::analyze`: the per-function escaping set. -/
def analyze (params : List Parameter) (body : AstNode) : List String :=
  visit_body params body

end EscapeAnalysis

/-- Whether a node is syntactically a string literal
(`matches!(x, AstNode::StringLit(_))`). -/
def isStringLitNode : AstNode → Bool
  | .StringLit _ => true
  | _ => false

/-! ## Purity inference (`CodeGenerator::infer_purity` and helpers) -/

namespace CodeGenerator

/-- The impure builtin names rejected by `body_is_pure` at call sites. -/
def impureBuiltin (name : String) : Bool :=
  match name with
  | "print" | "println" | "print_int" | "println_int" | "print_bool"
  | "println_bool" | "print_char" | "println_char" | "read_file"
  | "write_file" | "vec_push" | "vec_set" | "send" | "recv" | "spawn" => true
  | _ => false

mutual
/-- `CodeGenerator::body_contains_add`: a *limited* traversal looking for any
`+`; it descends only through binary operators, blocks, returns, let
initializers, if statements, call arguments, and expression statements. -/
def body_contains_add : AstNode → Bool
  | .BinaryOp .Add _ _ => true
  | .BinaryOp _ left right => body_contains_add left || body_contains_add right
  | .Block nodes => bodyContainsAddList nodes
  | .Program nodes => bodyContainsAddList nodes
  | .Return (.some v) => body_contains_add v
  | .LetBinding _ value _ => body_contains_add value
  | .If condition then_block else_block =>
      body_contains_add condition || body_contains_add then_block ||
        bodyContainsAddOpt else_block
  | .Call _ args => bodyContainsAddList args
  | .ExpressionStatement e => body_contains_add e
  | _ => false

/-- List helper for `body_contains_add` (`iter().any`). -/
def bodyContainsAddList : AstList → Bool
  | .nil => false
  | .cons a rest => body_contains_add a || bodyContainsAddList rest

/-- Option helper for `body_contains_add`. -/
def bodyContainsAddOpt : AstOpt → Bool
  | .none => false
  | .some e => body_contains_add e
end

mutual
/-- `CodeGenerator::body_is_pure`. -/
def body_is_pure : AstNode → Bool
  | .Assignment _ _ => false
  | .ArrayAssignment _ _ _ => false
  | .Call name args => !impureBuiltin name && bodyIsPureList args
  | .Program nodes => bodyIsPureList nodes
  | .Block nodes => bodyIsPureList nodes
  | .FunctionDef _ _ body _ _ => body_is_pure body
  | .LetBinding _ value _ => body_is_pure value
  | .If condition then_block else_block =>
      body_is_pure condition && body_is_pure then_block &&
        bodyIsPureOpt else_block
  | .While condition body => body_is_pure condition && body_is_pure body
  | .For _ iterator body => body_is_pure iterator && body_is_pure body
  | .Return v => bodyIsPureOpt v
  | .BinaryOp op left right =>
      if op == .Add && (isStringLitNode left || isStringLitNode right) then
        false
      else body_is_pure left && body_is_pure right
  | .UnaryOp _ operand => body_is_pure operand
  | .ExpressionStatement e => body_is_pure e
  | .Match value arms => body_is_pure value && bodyIsPureArms arms
  | .ArrayLit elems => bodyIsPureList elems
  | .StructInit _ fields => bodyIsPureFields fields
  | .Index array index => body_is_pure array && body_is_pure index
  | .Reference e => body_is_pure e
  | .EnumValue _ _ (.some e) => body_is_pure e
  | .MethodCall object _ args => body_is_pure object && bodyIsPureList args
  | .MemberAccess object _ => body_is_pure object
  | _ => true

/-- List helper for `body_is_pure` (`iter().all`). -/
def bodyIsPureList : AstList → Bool
  | .nil => true
  | .cons a rest => body_is_pure a && bodyIsPureList rest

/-- Option helper for `body_is_pure` (`map_or(true, ..)`). -/
def bodyIsPureOpt : AstOpt → Bool
  | .none => true
  | .some e => body_is_pure e

/-- Arm helper for `body_is_pure` (arm bodies only). -/
def bodyIsPureArms : ArmList → Bool
  | .nil => true
  | .cons _ body rest => body_is_pure body && bodyIsPureArms rest

/-- Field helper for `body_is_pure` (field values only). -/
def bodyIsPureFields : FieldList → Bool
  | .nil => true
  | .cons _ v rest => body_is_pure v && bodyIsPureFields rest
end

/-- `CodeGenerator::infer_purity`. -/
def infer_purity (params : List Parameter) (body : AstNode) : Bool :=
  let has_string_param := params.any (fun p => (stripRefMarker p.param_type).2.2 == "string")
  if params.any (fun p =>
      let r := stripRefMarker p.param_type
      (p.is_reference || r.1) && (p.is_mutable || r.2.1)) then
    false
  else if has_string_param && body_contains_add body then
    false
  else
    body_is_pure body

/-! ## Generator state (`struct CodeGenerator`) -/

/-- Per-binding metadata (`struct VarMetadata`). -/
structure VarMetadata where
  llvm_name : String
  var_type : String
  is_heap : Bool
  array_size : Option Nat
  is_string_literal : Bool
deriving DecidableEq

/-- Loop labels for break/continue (`struct LoopLabels`). -/
structure LoopLabels where
  continue_label : String
  break_label : String
deriving DecidableEq

/-- The mutable generator (`struct CodeGenerator`), with every field of the
Rust struct plus a `diagnostics` list modelling the `eprintln!` stream.
`output` is the list of emitted lines (the Rust field is one string built by
`emit`, which appends `line + "\n"`).  The `loop_stack` head is the innermost
loop (`Vec` push/pop/last all act on the same end). -/
structure Gen where
  output : List String := []
  struct_decls : List String := []
  string_counter : Nat := 0
  temp_counter : Nat := 0
  label_counter : Nat := 0
  string_literals : List (String × String) := []
  current_function_vars : List (String × VarMetadata) := []
  loop_stack : List LoopLabels := []
  enum_types : List (String × List String) := []
  struct_types : List (String × List (String × String)) := []
  block_terminated : Bool := false
  current_function_name : String := ""
  current_function_return_type : String := ""
  function_signatures : List (String × String) := []
  pure_functions : List String := []
  non_escaping : List String := []
  current_binding : Option String := Option.none
  diagnostics : List String := []
deriving DecidableEq

/-- An iteration order for the per-function variable `HashMap`: any function
producing some ordering of the entry list.  Rust's `HashMap::iter` order is
unspecified; theorems that depend on it quantify over such orders (constrained
to permutations where needed). -/
def VarOrder : Type := List (String × VarMetadata) → List (String × VarMetadata)

/-- An iteration order for the struct-type `HashMap` iterated in
`CodeGenerator::generate`. -/
def StructOrder : Type :=
  List (String × List (String × String)) → List (String × List (String × String))

/-- `CodeGenerator::emit`: push one line of IR. -/
def emit (st : Gen) (line : String) : Gen :=
  { st with output := st.output ++ [line] }

/-- `CodeGenerator::new_temp`. -/
def new_temp (st : Gen) : Gen × String :=
  let t := st.temp_counter
  ({ st with temp_counter := t + 1 }, "%" ++ toString t)

/-- `CodeGenerator::new_label`. -/
def new_label (st : Gen) (pre : String) : Gen × String :=
  let l := st.label_counter
  ({ st with label_counter := l + 1 }, pre ++ toString l)

/-- `CodeGenerator::new_string_literal`: unconditionally mints a fresh
`.str.N` id and appends the `(id, value)` pair; there is no lookup of an
existing equal body. -/
def new_string_literal (st : Gen) (value : String) : Gen × String :=
  let id := ".str." ++ toString st.string_counter
  ({ st with
      string_counter := st.string_counter + 1,
      string_literals := st.string_literals ++ [(id, value)] }, id)

/-- `CodeGenerator::mangle_fn`. -/
def mangle_fn (name : String) : String :=
  if name == "main" then "main" else "brn_" ++ name

/-- `CodeGenerator::is_pointer_llvm_type`. -/
def is_pointer_llvm_type (ty : String) : Bool :=
  (ty == "string" || ty == "Vec") || ty.startsWith "[" ||
    (!(ty == "int" || ty == "bool" || ty == "char" || ty == "void") && !(ty == ""))

/-- `CodeGenerator::llvm_to_type`. -/
def llvm_to_type (llvm : String) : String :=
  match llvm with
  | "i64" => "int"
  | "i1" => "bool"
  | "i8" => "char"
  | "i8*" => "string"
  | "void" => "void"
  | _ => "int"

/-- `CodeGenerator::type_to_llvm`.  The `*`-prefix recursion runs on the
character list of the name so the recursion is structural. -/
def typeToLlvmAux (struct_types : List (String × List (String × String))) :
    List Char → String
  | '*' :: rest => typeToLlvmAux struct_types rest ++ "*"
  | cs =>
    let t := String.mk cs
    match t with
    | "int" => "i64"
    | "bool" => "i1"
    | "char" => "i8"
    | "string" => "i8*"
    | "array" => "i64*"
    | "Vec" => "i8*"
    | "void" => "void"
    | "enum" => "\x7b i32, i64 \x7d*"
    | _ => if assocContains struct_types t then "%" ++ t ++ "*" else "i64"

/-- `CodeGenerator::type_to_llvm` on strings. -/
def type_to_llvm (st : Gen) (type_name : String) : String :=
  typeToLlvmAux st.struct_types type_name.data

/-- `CodeGenerator::infer_struct_name`. -/
def infer_struct_name (st : Gen) : AstNode → String
  | .Identifier name =>
      match assocGet st.current_function_vars name with
      | Option.some m => m.var_type
      | Option.none => ""
  | .StructInit name _ => name
  | _ => ""

/-- `CodeGenerator::infer_type`. -/
def infer_type (st : Gen) : AstNode → String
  | .Number _ => "int"
  | .Boolean _ => "bool"
  | .Character _ => "char"
  | .StringLit _ => "string"
  | .StructInit name _ => name
  | .BinaryOp op left _ =>
      match op with
      | .Equal | .NotEqual | .LessThan | .LessEqual | .GreaterThan
      | .GreaterEqual | .And | .Or => "bool"
      | _ => infer_type st left
  | .Identifier name =>
      match assocGet st.current_function_vars name with
      | Option.some m => m.var_type
      | Option.none => "int"
  | .ArrayLit _ => "array"
  | .EnumValue _ _ _ => "enum"
  | .Call name _ =>
      match name with
      | "read_file" | "int_to_string" => "string"
      | "write_file" => "int"
      | "vec_new" => "Vec"
      | "vec_get" | "vec_len" => "int"
      | _ =>
        match assocGet st.function_signatures name with
        | Option.some t => llvm_to_type t
        | Option.none => "int"
  | .Reference inner => infer_type st inner
  | .MethodCall object method _ =>
      let obj_type := infer_type st object
      match method with
      | "len" | "char_at" | "get" => "int"
      | _ => obj_type
  | _ => "int"

/-- Lower-case two-digit hex of a byte, as formatted by Rust `{:02x}`. -/
def hex2 (n : Nat) : String :=
  (if n < 16 then "0" else "") ++ (Nat.toDigits 16 n).asString

/-- `CodeGenerator::escape_string`: escape a literal body byte by byte for a
`c"..."` constant. -/
def escape_string (s : String) : String :=
  s.toUTF8.toList.foldl
    (fun acc b =>
      let c := b.toNat
      acc ++
        (if c == 10 then "\\0A"
         else if c == 13 then "\\0D"
         else if c == 9 then "\\09"
         else if c == 92 then "\\5C"
         else if c == 34 then "\\22"
         else if 32 ≤ c && c ≤ 126 then String.singleton (Char.ofNat c)
         else "\\" ++ hex2 c))
    ""

/-- `CodeGenerator::gen_string_concat_inner`: lower a string concatenation;
`use_stack` chooses `alloca` over `malloc` for the result buffer. -/
def gen_string_concat_inner (st : Gen) (left right : String) (use_stack : Bool) :
    Gen × String :=
  let (st, len1) := new_temp st
  let (st, len2) := new_temp st
  let st := emit st ("  " ++ len1 ++ " = call i64 @strlen(i8* " ++ left ++ ")")
  let st := emit st ("  " ++ len2 ++ " = call i64 @strlen(i8* " ++ right ++ ")")
  let (st, total) := new_temp st
  let (st, total_plus_one) := new_temp st
  let st := emit st ("  " ++ total ++ " = add i64 " ++ len1 ++ ", " ++ len2)
  let st := emit st ("  " ++ total_plus_one ++ " = add i64 " ++ total ++ ", 1")
  let (st, new_ptr) := new_temp st
  let st :=
    if use_stack then
      emit st ("  " ++ new_ptr ++ " = alloca i8, i64 " ++ total_plus_one)
    else
      emit st ("  " ++ new_ptr ++ " = call i8* @malloc(i64 " ++ total_plus_one ++ ")")
  let (st, temp1) := new_temp st
  let st := emit st ("  " ++ temp1 ++ " = call i8* @strcpy(i8* " ++ new_ptr ++ ", i8* " ++ left ++ ")")
  let (st, offset_ptr) := new_temp st
  let st := emit st ("  " ++ offset_ptr ++ " = getelementptr i8, i8* " ++ new_ptr ++ ", i64 " ++ len1)
  let (st, temp2) := new_temp st
  let st := emit st ("  " ++ temp2 ++ " = call i8* @strcpy(i8* " ++ offset_ptr ++ ", i8* " ++ right ++ ")")
  (st, new_ptr)

/-- `CodeGenerator::gen_string_concat`: the result is stack-promoted exactly
when the binding currently being initialized is in the non-escaping set. -/
def gen_string_concat (st : Gen) (left right : String) : Gen × String :=
  let use_stack :=
    match st.current_binding with
    | Option.some b => st.non_escaping.contains b
    | Option.none => false
  gen_string_concat_inner st left right use_stack

/-- The `free_if_owned` closure in the string-`+` lowering: frees the current
value of an identifier operand unless the binding is flagged as a string
literal.  (It does not consult `is_heap`.) -/
def free_if_owned (st : Gen) : AstNode → Gen
  | .Identifier name =>
      match assocGet st.current_function_vars name with
      | Option.some meta =>
          if !meta.is_string_literal then
            let (st, loaded) := new_temp st
            let st := emit st ("  " ++ loaded ++ " = load i8*, i8** " ++ meta.llvm_name)
            emit st ("  call void @free(i8* " ++ loaded ++ ")")
          else st
      | Option.none => st
  | _ => st

/-- Length of an `AstList` (`Vec::len`). -/
def astListLength : AstList → Nat
  | .nil => 0
  | .cons _ rest => astListLength rest + 1

/-- Whether any arm of a match uses an enum pattern (`is_enum_match`). -/
def armsHasEnum : ArmList → Bool
  | .nil => false
  | .cons p _ rest =>
      (match p with | .EnumPattern _ _ _ => true | _ => false) || armsHasEnum rest

/-- Parse the size out of a sized-array surface type (the
`split(';').nth(1)` + trim + `trim_end_matches(']')` + parse dance used in
`gen_function`), returning `Option Nat` like Rust `parse().ok()`. -/
def arraySizeOfType (inner_type : String) : Option Nat :=
  match (inner_type.splitOn ";")[1]? with
  | Option.some size_str =>
      (((size_str.trim.dropRightWhile (fun c => c == ']')).trim).toNat?)
  | Option.none => Option.none

/-- The parameter-list string built in `gen_function`. -/
def paramListString (st : Gen) (params : List Parameter) : String :=
  if params.isEmpty then ""
  else
    String.intercalate ", " (params.map (fun p =>
      let r := stripRefMarker p.param_type
      let inner_type := r.2.2
      let type_is_ref := r.1 || p.is_reference
      let type_is_mut := r.2.1 || p.is_mutable
      let param_type_str :=
        if type_is_ref then
          if inner_type.startsWith "[" then
            match (inner_type.splitOn ";")[1]? with
            | Option.some size_str =>
                let size := (((size_str.trim.dropRightWhile (fun c => c == ']')).trim).toNat?).getD 100
                "[" ++ toString size ++ " x i64]*"
            | Option.none => "i64*"
          else type_to_llvm st inner_type ++ "*"
        else type_to_llvm st p.param_type
      let is_simple_ptr := type_is_ref && !(inner_type.startsWith "[")
      let is_owned_ptr := !type_is_ref && is_pointer_llvm_type p.param_type && !type_is_mut
      let attrs :=
        if is_simple_ptr then
          if !type_is_mut then "noalias readonly" else "noalias"
        else if is_owned_ptr then "noalias readonly"
        else ""
      if attrs == "" then param_type_str ++ " %arg_" ++ p.name
      else param_type_str ++ " " ++ attrs ++ " %arg_" ++ p.name))

/-- The parameter prologue of `gen_function`: reference parameters are
recorded with their argument register as the slot; by-value parameters get a
fresh `alloca`-ed slot with the argument stored into it. -/
def paramPrologue (st : Gen) (params : List Parameter) : Gen :=
  params.foldl
    (fun st param =>
      let r := stripRefMarker param.param_type
      let inner_type := r.2.2
      let type_is_ref := r.1 || param.is_reference
      if type_is_ref then
        let array_size :=
          if inner_type.startsWith "[" then arraySizeOfType inner_type
          else Option.none
        let meta : VarMetadata :=
          { llvm_name := "%arg_" ++ param.name, var_type := inner_type,
            is_heap := false, array_size := array_size, is_string_literal := false }
        let vars := assocInsert st.current_function_vars param.name meta
        { st with current_function_vars := vars }
      else
        let param_type_str := type_to_llvm st param.param_type
        let (st, ptr) := new_temp st
        let st := emit st ("  " ++ ptr ++ " = alloca " ++ param_type_str)
        let st := emit st ("  store " ++ param_type_str ++ " %arg_" ++ param.name ++
          ", " ++ param_type_str ++ "* " ++ ptr)
        let meta : VarMetadata :=
          { llvm_name := ptr, var_type := param.param_type,
            is_heap := false, array_size := Option.none, is_string_literal := false }
        let vars := assocInsert st.current_function_vars param.name meta
        { st with current_function_vars := vars })
    st

/-- Collect the non-escaping top-level let names of a function body
(`gen_function` lines 2419-2427): only lets that are *direct* statements of
the body block are considered. -/
def nonEscapingOfBody (escaping : List String) : AstNode → List String
  | .Block stmts =>
      let rec go : AstList → List String → List String
        | .nil, acc => acc
        | .cons s rest, acc =>
            match s with
            | .LetBinding name _ _ =>
                go rest (if escaping.contains name then acc else setInsert acc name)
            | _ => go rest acc
      go stmts []
  | _ => []

/-- The block-exit free sequence for one binding (`AstNode::Block` cleanup):
struct pointers are loaded, bitcast and freed; vectors free the data buffer
at header offset 16 and then the header; any other heap binding is loaded and
freed as a plain `i8*`. -/
def emitFreeFor (st : Gen) (llvm_name var_type : String) : Gen :=
  if assocContains st.struct_types var_type then
    let (st, struct_ptr) := new_temp st
    let st := emit st ("  " ++ struct_ptr ++ " = load %" ++ var_type ++ "*, %" ++
      var_type ++ "** " ++ llvm_name)
    let (st, i8_ptr) := new_temp st
    let st := emit st ("  " ++ i8_ptr ++ " = bitcast %" ++ var_type ++ "* " ++
      struct_ptr ++ " to i8*")
    emit st ("  call void @free(i8* " ++ i8_ptr ++ ")")
  else if var_type == "Vec" then
    let (st, ptr_reg) := new_temp st
    let st := emit st ("  " ++ ptr_reg ++ " = load i8*, i8** " ++ llvm_name)
    let (st, dp_raw) := new_temp st
    let st := emit st ("  " ++ dp_raw ++ " = getelementptr i8, i8* " ++ ptr_reg ++ ", i64 16")
    let (st, dp) := new_temp st
    let st := emit st ("  " ++ dp ++ " = bitcast i8* " ++ dp_raw ++ " to i8**")
    let (st, data) := new_temp st
    let st := emit st ("  " ++ data ++ " = load i8*, i8** " ++ dp)
    let st := emit st ("  call void @free(i8* " ++ data ++ ")")
    emit st ("  call void @free(i8* " ++ ptr_reg ++ ")")
  else
    let (st, ptr_reg) := new_temp st
    let st := emit st ("  " ++ ptr_reg ++ " = load i8*, i8** " ++ llvm_name)
    emit st ("  call void @free(i8* " ++ ptr_reg ++ ")")

mutual
/-- `CodeGenerator::gen_node`.  The state is threaded explicitly; the result
string is the value register / literal the Rust function returns.  `o` is the
iteration order used when the block-cleanup path iterates the variable
`HashMap`. -/
def gen_node (o : VarOrder) (st : Gen) : AstNode → Gen × String
  | .Import _ => (st, "0")
  | .StructDef _ _ => (st, "0")
  | .StructInit name fields =>
      let struct_fields := (assocGet st.struct_types name).getD []
      let num_fields := struct_fields.length
      let stack_promote :=
        match st.current_binding with
        | Option.some b => st.non_escaping.contains b
        | Option.none => false
      let (st, struct_ptr) := new_temp st
      let st :=
        if stack_promote then
          emit st ("  " ++ struct_ptr ++ " = alloca %" ++ name)
        else
          let size : Int := (num_fields : Int) * 8
          let (st, raw_ptr) := new_temp st
          let st := emit st ("  " ++ raw_ptr ++ " = call i8* @malloc(i64 " ++ toString size ++ ")")
          emit st ("  " ++ struct_ptr ++ " = bitcast i8* " ++ raw_ptr ++ " to %" ++ name ++ "*")
      let st := genStructFields o st name struct_fields struct_ptr fields
      (st, struct_ptr)
  | .MemberAccess object field =>
      let (st, obj_reg) := gen_node o st object
      let struct_name := infer_struct_name st object
      match assocGet st.struct_types struct_name with
      | Option.some struct_fields =>
          match struct_fields.findIdx? (fun p => p.1 == field) with
          | Option.some field_idx =>
              let field_type := (struct_fields[field_idx]?.map (fun p => p.2)).getD "int"
              let llvm_field_type := type_to_llvm st field_type
              let (st, gep) := new_temp st
              let st := emit st ("  " ++ gep ++ " = getelementptr %" ++ struct_name ++
                ", %" ++ struct_name ++ "* " ++ obj_reg ++ ", i32 0, i32 " ++ toString field_idx)
              let (st, result) := new_temp st
              let st := emit st ("  " ++ result ++ " = load " ++ llvm_field_type ++
                ", " ++ llvm_field_type ++ "* " ++ gep)
              (st, result)
          | Option.none => (st, "0")
      | Option.none => (st, "0")
  | .EnumDef name variants =>
      let variant_names := variants.map (fun v => v.name)
      ({ st with enum_types := assocInsert st.enum_types name variant_names }, "0")
  | .EnumValue enum_name variant value =>
      let tag : Int :=
        match assocGet st.enum_types enum_name with
        | Option.some variants => ((variants.findIdx? (fun v => v == variant)).getD 0 : Nat)
        | Option.none => 0
      let (st, ptr) := new_temp st
      let st := emit st ("  " ++ ptr ++ " = alloca \x7b i32, i64 \x7d")
      let (st, tag_ptr) := new_temp st
      let st := emit st ("  " ++ tag_ptr ++
        " = getelementptr \x7b i32, i64 \x7d, \x7b i32, i64 \x7d* " ++ ptr ++ ", i32 0, i32 0")
      let st := emit st ("  store i32 " ++ toString tag ++ ", i32* " ++ tag_ptr)
      let (st, val) :=
        match value with
        | .some v => gen_node o st v
        | .none => (st, "0")
      let (st, val_ptr) := new_temp st
      let st := emit st ("  " ++ val_ptr ++
        " = getelementptr \x7b i32, i64 \x7d, \x7b i32, i64 \x7d* " ++ ptr ++ ", i32 0, i32 1")
      let st := emit st ("  store i64 " ++ val ++ ", i64* " ++ val_ptr)
      (st, ptr)
  | .Match value arms =>
      let (st, value_reg) := gen_node o st value
      let (st, end_label) := new_label st "match_end"
      let is_enum_match := armsHasEnum arms
      let st :=
        if is_enum_match then
          let (st, tag_ptr) := new_temp st
          let st := emit st ("  " ++ tag_ptr ++
            " = getelementptr \x7b i32, i64 \x7d, \x7b i32, i64 \x7d* " ++ value_reg ++
            ", i32 0, i32 0")
          let (st, tag) := new_temp st
          let st := emit st ("  " ++ tag ++ " = load i32, i32* " ++ tag_ptr)
          genArmsEnum o st value_reg tag end_label 0 arms
        else
          genArmsPlain o st value_reg end_label 0 arms
      let st := emit st (end_label ++ ":")
      ({ st with block_terminated := false }, "0")
  | .FunctionDef name params body return_type _ =>
      -- `CodeGenerator::gen_function`, inlined here so the recursion into the
      -- body stays structural.
      let st := { st with
        current_function_vars := [], temp_counter := 0, label_counter := 0 }
      let escaping := EscapeAnalysis.analyze params body
      let st := { st with non_escaping := nonEscapingOfBody escaping body }
      let ret_type :=
        if name == "main" then "i32"
        else match return_type with
          | Option.some rt => type_to_llvm st rt
          | Option.none => "void"
      let st := { st with
        function_signatures := assocInsert st.function_signatures name ret_type,
        current_function_name := name,
        current_function_return_type := ret_type }
      let param_list := paramListString st params
      let mangled := mangle_fn name
      let fn_attrs :=
        if name != "main" && st.pure_functions.contains name then
          " nounwind readonly willreturn"
        else " nounwind"
      let st := emit st ("\ndefine " ++ ret_type ++ " @" ++ mangled ++ "(" ++
        param_list ++ ")" ++ fn_attrs ++ " \x7b")
      let st := emit st "entry:"
      let st := paramPrologue st params
      let st := { st with block_terminated := false }
      let (st, _) := gen_node o st body
      let st :=
        if name == "main" && !st.block_terminated then emit st "  ret i32 0"
        else if ret_type == "void" && !st.block_terminated then emit st "  ret void"
        else st
      let st := emit st "\x7d"
      (st, "")
  | .LetBinding name value _ =>
      let st := { st with current_binding := Option.some name }
      let (st, value_reg) := gen_node o st value
      let st := { st with current_binding := Option.none }
      let var_type := infer_type st value
      let is_string_literal := match value with | .StringLit _ => true | _ => false
      let is_struct := assocContains st.struct_types var_type
      let stack_promote := st.non_escaping.contains name
      let is_heap := !stack_promote &&
        ((var_type == "string" && !is_string_literal) || var_type == "Vec" || is_struct)
      match value with
      | .ArrayLit elements =>
          let size := astListLength elements
          let sized_type := "[" ++ toString size ++ "; int]"
          let meta : VarMetadata :=
            { llvm_name := value_reg, var_type := sized_type, is_heap := false,
              array_size := Option.some size, is_string_literal := false }
          let vars := assocInsert st.current_function_vars name meta
          let st := { st with current_function_vars := vars }
          (st, value_reg)
      | _ =>
          let (st, ptr) := new_temp st
          let llvm_type_str := type_to_llvm st var_type
          let st := emit st ("  " ++ ptr ++ " = alloca " ++ llvm_type_str)
          let st := emit st ("  store " ++ llvm_type_str ++ " " ++ value_reg ++
            ", " ++ llvm_type_str ++ "* " ++ ptr)
          let meta : VarMetadata :=
            { llvm_name := ptr, var_type := var_type, is_heap := is_heap,
              array_size := Option.none, is_string_literal := is_string_literal }
          let vars := assocInsert st.current_function_vars name meta
          let st := { st with current_function_vars := vars }
          (st, ptr)
  | .ArrayAssignment array index value =>
      let (st, index_val) := gen_node o st index
      let (st, value_reg) := gen_node o st value
      let st :=
        match assocGet st.current_function_vars array with
        | Option.some meta =>
            let array_size := meta.array_size.getD 100
            let (st, elem_ptr) := new_temp st
            let st := emit st ("  " ++ elem_ptr ++ " = getelementptr [" ++
              toString array_size ++ " x i64], [" ++ toString array_size ++
              " x i64]* " ++ meta.llvm_name ++ ", i64 0, i64 " ++ index_val)
            emit st ("  store i64 " ++ value_reg ++ ", i64* " ++ elem_ptr)
        | Option.none => st
      (st, value_reg)
  | .Assignment name value =>
      let (st, value_reg) := gen_node o st value
      let st :=
        match assocGet st.current_function_vars name with
        | Option.some meta =>
            let llvm_type_str := type_to_llvm st meta.var_type
            emit st ("  store " ++ llvm_type_str ++ " " ++ value_reg ++ ", " ++
              llvm_type_str ++ "* " ++ meta.llvm_name)
        | Option.none => st
      (st, value_reg)
  | .If condition then_block else_block =>
      let (st, cond_reg) := gen_node o st condition
      let (st, then_label) := new_label st "then"
      let (st, else_label) := new_label st "else"
      let (st, end_label) := new_label st "endif"
      let st :=
        match else_block with
        | .some _ => emit st ("  br i1 " ++ cond_reg ++ ", label %" ++ then_label ++
            ", label %" ++ else_label)
        | .none => emit st ("  br i1 " ++ cond_reg ++ ", label %" ++ then_label ++
            ", label %" ++ end_label)
      let st := emit st (then_label ++ ":")
      let st := { st with block_terminated := false }
      let (st, _) := gen_node o st then_block
      let then_terminated := st.block_terminated
      let st := if !st.block_terminated then emit st ("  br label %" ++ end_label) else st
      let (st, else_terminated) :=
        match else_block with
        | .some eb =>
            let st := emit st (else_label ++ ":")
            let st := { st with block_terminated := false }
            let (st, _) := gen_node o st eb
            let et := st.block_terminated
            let st := if !st.block_terminated then emit st ("  br label %" ++ end_label) else st
            (st, et)
        | .none => (st, false)
      let st := emit st (end_label ++ ":")
      let st := if then_terminated && else_terminated then emit st "  unreachable" else st
      ({ st with block_terminated := false }, "0")
  | .While condition body =>
      let (st, cond_label) := new_label st "while_cond"
      let (st, body_label) := new_label st "while_body"
      let (st, end_label) := new_label st "while_end"
      let st := { st with loop_stack :=
        { continue_label := cond_label, break_label := end_label } :: st.loop_stack }
      let st := emit st ("  br label %" ++ cond_label)
      let st := emit st (cond_label ++ ":")
      let (st, cond_reg) := gen_node o st condition
      let st := emit st ("  br i1 " ++ cond_reg ++ ", label %" ++ body_label ++
        ", label %" ++ end_label)
      let st := emit st (body_label ++ ":")
      let st := { st with block_terminated := false }
      let (st, _) := gen_node o st body
      let st := if !st.block_terminated then emit st ("  br label %" ++ cond_label) else st
      let st := emit st (end_label ++ ":")
      let st := { st with loop_stack := st.loop_stack.tail, block_terminated := false }
      (st, "0")
  -- The `AstNode::For` arm destructures its iterator with an inner `if let`;
  -- here the two shapes are split into two top-level arms (range iterators
  -- vs. a single expression treated as `0..e`) so the recursion stays
  -- structural.  Both arms continue identically.
  | .For var (.BinaryOp .DotDot left right) body =>
      let (st, start_val) := gen_node o st left
      let (st, end_val) := gen_node o st right
      let (st, start_label) := new_label st "for_start"
      let (st, body_label) := new_label st "for_body"
      let (st, end_label) := new_label st "for_end"
      let st := { st with loop_stack :=
        { continue_label := start_label, break_label := end_label } :: st.loop_stack }
      let (st, loop_var) := new_temp st
      let st := emit st ("  " ++ loop_var ++ " = alloca i64")
      let st := emit st ("  store i64 " ++ start_val ++ ", i64* " ++ loop_var)
      let (st, end_ptr) := new_temp st
      let st := emit st ("  " ++ end_ptr ++ " = alloca i64")
      let st := emit st ("  store i64 " ++ end_val ++ ", i64* " ++ end_ptr)
      let meta : VarMetadata :=
        { llvm_name := loop_var, var_type := "int", is_heap := false,
          array_size := Option.none, is_string_literal := false }
      let vars := assocInsert st.current_function_vars var meta
      let st := { st with current_function_vars := vars }
      let st := emit st ("  br label %" ++ start_label)
      let st := emit st (start_label ++ ":")
      let (st, current) := new_temp st
      let (st, end_loaded) := new_temp st
      let st := emit st ("  " ++ current ++ " = load i64, i64* " ++ loop_var)
      let st := emit st ("  " ++ end_loaded ++ " = load i64, i64* " ++ end_ptr)
      let (st, cond) := new_temp st
      let st := emit st ("  " ++ cond ++ " = icmp slt i64 " ++ current ++ ", " ++ end_loaded)
      let st := emit st ("  br i1 " ++ cond ++ ", label %" ++ body_label ++
        ", label %" ++ end_label)
      let st := emit st (body_label ++ ":")
      let (st, _) := gen_node o st body
      let (st, curr2) := new_temp st
      let (st, next) := new_temp st
      let st := emit st ("  " ++ curr2 ++ " = load i64, i64* " ++ loop_var)
      let st := emit st ("  " ++ next ++ " = add i64 " ++ curr2 ++ ", 1")
      let st := emit st ("  store i64 " ++ next ++ ", i64* " ++ loop_var)
      let st := emit st ("  br label %" ++ start_label)
      let st := emit st (end_label ++ ":")
      let st := { st with loop_stack := st.loop_stack.tail }
      (st, "0")
  | .For var iterator body =>
      let start_val := "0"
      let (st, end_val) := gen_node o st iterator
      let (st, start_label) := new_label st "for_start"
      let (st, body_label) := new_label st "for_body"
      let (st, end_label) := new_label st "for_end"
      let st := { st with loop_stack :=
        { continue_label := start_label, break_label := end_label } :: st.loop_stack }
      let (st, loop_var) := new_temp st
      let st := emit st ("  " ++ loop_var ++ " = alloca i64")
      let st := emit st ("  store i64 " ++ start_val ++ ", i64* " ++ loop_var)
      let (st, end_ptr) := new_temp st
      let st := emit st ("  " ++ end_ptr ++ " = alloca i64")
      let st := emit st ("  store i64 " ++ end_val ++ ", i64* " ++ end_ptr)
      let meta : VarMetadata :=
        { llvm_name := loop_var, var_type := "int", is_heap := false,
          array_size := Option.none, is_string_literal := false }
      let vars := assocInsert st.current_function_vars var meta
      let st := { st with current_function_vars := vars }
      let st := emit st ("  br label %" ++ start_label)
      let st := emit st (start_label ++ ":")
      let (st, current) := new_temp st
      let (st, end_loaded) := new_temp st
      let st := emit st ("  " ++ current ++ " = load i64, i64* " ++ loop_var)
      let st := emit st ("  " ++ end_loaded ++ " = load i64, i64* " ++ end_ptr)
      let (st, cond) := new_temp st
      let st := emit st ("  " ++ cond ++ " = icmp slt i64 " ++ current ++ ", " ++ end_loaded)
      let st := emit st ("  br i1 " ++ cond ++ ", label %" ++ body_label ++
        ", label %" ++ end_label)
      let st := emit st (body_label ++ ":")
      let (st, _) := gen_node o st body
      let (st, curr2) := new_temp st
      let (st, next) := new_temp st
      let st := emit st ("  " ++ curr2 ++ " = load i64, i64* " ++ loop_var)
      let st := emit st ("  " ++ next ++ " = add i64 " ++ curr2 ++ ", 1")
      let st := emit st ("  store i64 " ++ next ++ ", i64* " ++ loop_var)
      let st := emit st ("  br label %" ++ start_label)
      let st := emit st (end_label ++ ":")
      let st := { st with loop_stack := st.loop_stack.tail }
      (st, "0")
  | .Break =>
      match st.loop_stack.head? with
      | Option.some labels =>
          let st := emit st ("  br label %" ++ labels.break_label)
          ({ st with block_terminated := true }, "0")
      | Option.none => (st, "0")
  | .Continue =>
      match st.loop_stack.head? with
      | Option.some labels =>
          let st := emit st ("  br label %" ++ labels.continue_label)
          ({ st with block_terminated := true }, "0")
      | Option.none => (st, "0")
  | .Return value =>
      let st :=
        match value with
        | .some v =>
            let (st, value_reg) := gen_node o st v
            emit st ("  ret " ++ st.current_function_return_type ++ " " ++ value_reg)
        | .none =>
            if st.current_function_return_type == "void" then emit st "  ret void"
            else emit st "  ret i64 0"
      ({ st with block_terminated := true }, "0")
  | .Block statements =>
      let vars_before := st.current_function_vars
      let (st, last_reg) := genList o st statements
      let vars_to_free :=
        ((o st.current_function_vars).filter
          (fun p => p.2.is_heap && !p.2.is_string_literal && !assocContains vars_before p.1)).map
          (fun p => (p.2.llvm_name, p.2.var_type))
      let st :=
        if !st.block_terminated then
          vars_to_free.foldl (fun st p => emitFreeFor st p.1 p.2) st
        else st
      (st, last_reg)
  | .ExpressionStatement expr => gen_node o st expr
  | .BinaryOp op left right =>
      let (st, left_reg) := gen_node o st left
      let (st, right_reg) := gen_node o st right
      match op with
      | .DotDot => (st, right_reg)
      | .Add =>
          if infer_type st left == "string" then
            let (st, result) := gen_string_concat st left_reg right_reg
            let st := free_if_owned st right
            let st := free_if_owned st left
            (st, result)
          else
            let (st, result) := new_temp st
            (emit st ("  " ++ result ++ " = add i64 " ++ left_reg ++ ", " ++ right_reg), result)
      | .Sub =>
          let (st, result) := new_temp st
          (emit st ("  " ++ result ++ " = sub i64 " ++ left_reg ++ ", " ++ right_reg), result)
      | .Mul =>
          let (st, result) := new_temp st
          (emit st ("  " ++ result ++ " = mul i64 " ++ left_reg ++ ", " ++ right_reg), result)
      | .Div =>
          let (st, result) := new_temp st
          (emit st ("  " ++ result ++ " = sdiv i64 " ++ left_reg ++ ", " ++ right_reg), result)
      | .Mod =>
          let (st, result) := new_temp st
          (emit st ("  " ++ result ++ " = srem i64 " ++ left_reg ++ ", " ++ right_reg), result)
      | .Equal =>
          if infer_type st left == "string" then
            let (st, cmp) := new_temp st
            let st := emit st ("  " ++ cmp ++ " = call i32 @strcmp(i8* " ++ left_reg ++
              ", i8* " ++ right_reg ++ ")")
            let (st, result) := new_temp st
            (emit st ("  " ++ result ++ " = icmp eq i32 " ++ cmp ++ ", 0"), result)
          else
            let (st, result) := new_temp st
            (emit st ("  " ++ result ++ " = icmp eq i64 " ++ left_reg ++ ", " ++ right_reg), result)
      | .NotEqual =>
          if infer_type st left == "string" then
            let (st, cmp) := new_temp st
            let st := emit st ("  " ++ cmp ++ " = call i32 @strcmp(i8* " ++ left_reg ++
              ", i8* " ++ right_reg ++ ")")
            let (st, result) := new_temp st
            (emit st ("  " ++ result ++ " = icmp ne i32 " ++ cmp ++ ", 0"), result)
          else
            let (st, result) := new_temp st
            (emit st ("  " ++ result ++ " = icmp ne i64 " ++ left_reg ++ ", " ++ right_reg), result)
      | .LessThan =>
          let (st, result) := new_temp st
          (emit st ("  " ++ result ++ " = icmp slt i64 " ++ left_reg ++ ", " ++ right_reg), result)
      | .LessEqual =>
          let (st, result) := new_temp st
          (emit st ("  " ++ result ++ " = icmp sle i64 " ++ left_reg ++ ", " ++ right_reg), result)
      | .GreaterThan =>
          let (st, result) := new_temp st
          (emit st ("  " ++ result ++ " = icmp sgt i64 " ++ left_reg ++ ", " ++ right_reg), result)
      | .GreaterEqual =>
          let (st, result) := new_temp st
          (emit st ("  " ++ result ++ " = icmp sge i64 " ++ left_reg ++ ", " ++ right_reg), result)
      | .And =>
          let (st, result) := new_temp st
          (emit st ("  " ++ result ++ " = and i1 " ++ left_reg ++ ", " ++ right_reg), result)
      | .Or =>
          let (st, result) := new_temp st
          (emit st ("  " ++ result ++ " = or i1 " ++ left_reg ++ ", " ++ right_reg), result)
  | .UnaryOp op operand =>
      let (st, operand_reg) := gen_node o st operand
      let (st, result) := new_temp st
      match op with
      | .Not => (emit st ("  " ++ result ++ " = xor i1 " ++ operand_reg ++ ", true"), result)
      | .Negate => (emit st ("  " ++ result ++ " = sub i64 0, " ++ operand_reg), result)
  | .Number n => (st, toString n)
  | .Boolean b => (st, if b then "1" else "0")
  | .Character c => (st, toString (c.toNat : Int))
  | .StringLit s =>
      let (st, id) := new_string_literal st s
      let (st, ptr) := new_temp st
      let len := s.utf8ByteSize + 1
      let st := emit st ("  " ++ ptr ++ " = getelementptr inbounds [" ++ toString len ++
        " x i8], [" ++ toString len ++ " x i8]* @" ++ id ++ ", i64 0, i64 0")
      (st, ptr)
  | .ArrayLit elements =>
      match elements with
      | .nil => (st, "null")
      | _ =>
          let size := astListLength elements
          let array_type := "[" ++ toString size ++ " x i64]"
          let (st, ptr) := new_temp st
          let st := emit st ("  " ++ ptr ++ " = alloca " ++ array_type)
          let st := genArrayElems o st size ptr 0 elements
          (st, ptr)
  -- The `AstNode::Index` arm (split on the array expression so the recursion
  -- stays structural; the identifier case returns early with a diagnostic
  -- when the array is unknown).
  | .Index (.Identifier name) index =>
      let (st, index_val) := gen_node o st index
      match assocGet st.current_function_vars name with
      | Option.some meta =>
          let array_size := meta.array_size.getD 100
          let (st, elem_ptr) := new_temp st
          let (st, result) := new_temp st
          let st := emit st ("  " ++ elem_ptr ++ " = getelementptr [" ++
            toString array_size ++ " x i64], [" ++ toString array_size ++ " x i64]* " ++
            meta.llvm_name ++ ", i64 0, i64 " ++ index_val)
          let st := emit st ("  " ++ result ++ " = load i64, i64* " ++ elem_ptr)
          (st, result)
      | Option.none =>
          ({ st with diagnostics := st.diagnostics ++
             ["CODEGEN ERROR: Array \x27" ++ name ++ "\x27 not found!"] }, "0")
  | .Index array index =>
      let (st, index_val) := gen_node o st index
      let (st, array_ptr) := gen_node o st array
      let array_size := 100
      let (st, elem_ptr) := new_temp st
      let (st, result) := new_temp st
      let st := emit st ("  " ++ elem_ptr ++ " = getelementptr [" ++
        toString array_size ++ " x i64], [" ++ toString array_size ++ " x i64]* " ++
        array_ptr ++ ", i64 0, i64 " ++ index_val)
      let st := emit st ("  " ++ result ++ " = load i64, i64* " ++ elem_ptr)
      (st, result)
  | .Identifier name =>
      match assocGet st.current_function_vars name with
      | Option.some meta =>
          let (st, result) := new_temp st
          let llvm_type_str := type_to_llvm st meta.var_type
          let st := emit st ("  " ++ result ++ " = load " ++ llvm_type_str ++ ", " ++
            llvm_type_str ++ "* " ++ meta.llvm_name)
          (st, result)
      | Option.none =>
          ({ st with diagnostics := st.diagnostics ++
             ["CODEGEN ERROR: Variable \x27" ++ name ++ "\x27 not found in current scope!"] },
           "0")
  | .Reference (.Identifier name) =>
      match assocGet st.current_function_vars name with
      | Option.some meta =>
          if meta.var_type.startsWith "[" || meta.var_type == "array" then
            (st, meta.llvm_name)
          else
            let (st, result) := new_temp st
            let llvm_type_str := type_to_llvm st meta.var_type
            let st := emit st ("  " ++ result ++ " = load " ++ llvm_type_str ++ ", " ++
              llvm_type_str ++ "* " ++ meta.llvm_name)
            (st, result)
      | Option.none =>
          ({ st with diagnostics := st.diagnostics ++
             ["CODEGEN ERROR: Variable \x27" ++ name ++ "\x27 not found for reference!"] },
           "null")
  | .Reference expr => gen_node o st expr
  -- The `AstNode::Call` arm: the Rust code matches on the builtin name with
  -- argument-count guards; here each guarded builtin is a top-level arm (so
  -- the recursion stays structural) and the final arm is the user-call path.
  | .Call "print" (.cons arg0 _) =>
          if infer_type st arg0 == "string" then
            let (st, arg_reg) := gen_node o st arg0
            let (st, result) := new_temp st
            (emit st ("  " ++ result ++ " = call i32 @puts(i8* " ++ arg_reg ++ ")"), result)
          else
            let (st, arg_reg) := gen_node o st arg0
            (emit st ("  call void @brn_print_int(i64 " ++ arg_reg ++ ")"), "0")
  | .Call "read_file" (.cons arg0 _) =>
          let (st, filename_reg) := gen_node o st arg0
          let (st, result) := new_temp st
          (emit st ("  " ++ result ++ " = call i8* @read_file_impl(i8* " ++ filename_reg ++ ")"),
           result)
  | .Call "write_file" (.cons arg0 (.cons arg1 _)) =>
          let (st, filename_reg) := gen_node o st arg0
          let (st, content_reg) := gen_node o st arg1
          let (st, result) := new_temp st
          let st := emit st ("  " ++ result ++ " = call i32 @write_file_impl(i8* " ++
            filename_reg ++ ", i8* " ++ content_reg ++ ")")
          let (st, result_i64) := new_temp st
          (emit st ("  " ++ result_i64 ++ " = sext i32 " ++ result ++ " to i64"), result_i64)
  | .Call "vec_new" _ =>
          let (st, result) := new_temp st
          (emit st ("  " ++ result ++ " = call i8* @vec_new_impl()"), result)
  | .Call "vec_push" (.cons arg0 (.cons arg1 _)) =>
          let (st, vec_reg) := gen_node o st arg0
          let (st, val_reg) := gen_node o st arg1
          (emit st ("  call void @vec_push_impl(i8* " ++ vec_reg ++ ", i64 " ++ val_reg ++ ")"),
           "0")
  | .Call "vec_get" (.cons arg0 (.cons arg1 _)) =>
          let (st, vec_reg) := gen_node o st arg0
          let (st, idx_reg) := gen_node o st arg1
          let (st, result) := new_temp st
          (emit st ("  " ++ result ++ " = call i64 @vec_get_impl(i8* " ++ vec_reg ++
            ", i64 " ++ idx_reg ++ ")"), result)
  | .Call "vec_set" (.cons arg0 (.cons arg1 (.cons arg2 _))) =>
          let (st, vec_reg) := gen_node o st arg0
          let (st, idx_reg) := gen_node o st arg1
          let (st, val_reg) := gen_node o st arg2
          (emit st ("  call void @vec_set_impl(i8* " ++ vec_reg ++ ", i64 " ++ idx_reg ++
            ", i64 " ++ val_reg ++ ")"), "0")
  | .Call "vec_len" (.cons arg0 _) =>
          let (st, vec_reg) := gen_node o st arg0
          let (st, result) := new_temp st
          (emit st ("  " ++ result ++ " = call i64 @vec_len_impl(i8* " ++ vec_reg ++ ")"), result)
  | .Call "int_to_string" (.cons arg0 _) =>
          let (st, n_reg) := gen_node o st arg0
          let (st, result) := new_temp st
          (emit st ("  " ++ result ++ " = call i8* @int_to_string_impl(i64 " ++ n_reg ++ ")"),
           result)
  | .Call name args =>
      let (st, arg_regs, arg_types) := genCallArgs o st args
          let args_str := String.intercalate ", "
            ((arg_types.zip arg_regs).map (fun p => p.1 ++ " " ++ p.2))
          let return_type := (assocGet st.function_signatures name).getD "i64"
          let mangled := mangle_fn name
          if return_type == "void" then
            (emit st ("  call void @" ++ mangled ++ "(" ++ args_str ++ ")"), "0")
          else
            let (st, result) := new_temp st
            (emit st ("  " ++ result ++ " = call " ++ return_type ++ " @" ++ mangled ++
              "(" ++ args_str ++ ")"), result)
  -- The `AstNode::MethodCall` arm, one top-level arm per method (the Rust
  -- code matches on the method name with argument-count guards).
  | .MethodCall object "len" _ =>
      let obj_type := infer_type st object
      let (st, obj_reg) := gen_node o st object
      (if obj_type == "Vec" then
            let (st, result) := new_temp st
            (emit st ("  " ++ result ++ " = call i64 @vec_len_impl(i8* " ++ obj_reg ++ ")"),
             result)
       else
            let (st, result) := new_temp st
            (emit st ("  " ++ result ++ " = call i64 @strlen(i8* " ++ obj_reg ++ ")"), result))
  | .MethodCall object "char_at" (.cons arg0 _) =>
          let (st, obj_reg) := gen_node o st object
          let (st, index_reg) := gen_node o st arg0
          let (st, char_ptr) := new_temp st
          let st := emit st ("  " ++ char_ptr ++ " = getelementptr i8, i8* " ++ obj_reg ++
            ", i64 " ++ index_reg)
          let (st, result) := new_temp st
          let st := emit st ("  " ++ result ++ " = load i8, i8* " ++ char_ptr)
          let (st, extended) := new_temp st
          (emit st ("  " ++ extended ++ " = sext i8 " ++ result ++ " to i64"), extended)
  | .MethodCall object "push" (.cons arg0 _) =>
          let (st, obj_reg) := gen_node o st object
          let (st, val_reg) := gen_node o st arg0
          (emit st ("  call void @vec_push_impl(i8* " ++ obj_reg ++ ", i64 " ++ val_reg ++ ")"),
           "0")
  | .MethodCall object "get" (.cons arg0 _) =>
          let (st, obj_reg) := gen_node o st object
          let (st, idx_reg) := gen_node o st arg0
          let (st, result) := new_temp st
          (emit st ("  " ++ result ++ " = call i64 @vec_get_impl(i8* " ++ obj_reg ++
            ", i64 " ++ idx_reg ++ ")"), result)
  | .MethodCall object "set" (.cons arg0 (.cons arg1 _)) =>
          let (st, obj_reg) := gen_node o st object
          let (st, idx_reg) := gen_node o st arg0
          let (st, val_reg) := gen_node o st arg1
          (emit st ("  call void @vec_set_impl(i8* " ++ obj_reg ++ ", i64 " ++ idx_reg ++
            ", i64 " ++ val_reg ++ ")"), "0")
  | _ => (st, "0")

/-- Statement-list lowering in `AstNode::Block`: `last_reg` starts as the
empty string and is the result of the final statement. -/
def genList (o : VarOrder) (st : Gen) : AstList → Gen × String
  | .nil => (st, "")
  | .cons s rest =>
      let (st, r) := gen_node o st s
      match rest with
      | .nil => (st, r)
      | _ => genList o st rest

/-- The field-initialization loop of `AstNode::StructInit`. -/
def genStructFields (o : VarOrder) (st : Gen) (name : String)
    (struct_fields : List (String × String)) (struct_ptr : String) :
    FieldList → Gen
  | .nil => st
  | .cons field_name field_value rest =>
      let (st, val_reg) := gen_node o st field_value
      let field_idx := (struct_fields.findIdx? (fun p => p.1 == field_name)).getD 0
      let field_type := (struct_fields[field_idx]?.map (fun p => p.2)).getD "int"
      let llvm_field_type := type_to_llvm st field_type
      let (st, gep) := new_temp st
      let st := emit st ("  " ++ gep ++ " = getelementptr %" ++ name ++ ", %" ++ name ++
        "* " ++ struct_ptr ++ ", i32 0, i32 " ++ toString field_idx)
      let st := emit st ("  store " ++ llvm_field_type ++ " " ++ val_reg ++ ", " ++
        llvm_field_type ++ "* " ++ gep)
      genStructFields o st name struct_fields struct_ptr rest

/-- The enum-dispatch arm loop of `AstNode::Match`. -/
def genArmsEnum (o : VarOrder) (st : Gen) (value_reg tag end_label : String)
    (i : Nat) : ArmList → Gen
  | .nil => st
  | .cons pattern body rest =>
      let is_last := match rest with | .nil => true | _ => false
      let (st, arm_label) := new_label st ("match_arm_" ++ toString i)
      let (st, next_label) :=
        if !is_last then new_label st ("match_check_" ++ toString (i + 1))
        else (st, end_label)
      let st :=
        match pattern with
        | .EnumPattern enum_name variant binding =>
            let variant_tag :=
              match assocGet st.enum_types enum_name with
              | Option.some variants => ((variants.findIdx? (fun v => v == variant)).getD i : Nat)
              | Option.none => i
            let (st, cond) := new_temp st
            let st := emit st ("  " ++ cond ++ " = icmp eq i32 " ++ tag ++ ", " ++
              toString variant_tag)
            let st := emit st ("  br i1 " ++ cond ++ ", label %" ++ arm_label ++
              ", label %" ++ next_label)
            let st := emit st (arm_label ++ ":")
            let st :=
              match binding with
              | Option.some b =>
                  let (st, val_ptr) := new_temp st
                  let st := emit st ("  " ++ val_ptr ++
                    " = getelementptr \x7b i32, i64 \x7d, \x7b i32, i64 \x7d* " ++
                    value_reg ++ ", i32 0, i32 1")
                  let (st, val) := new_temp st
                  let st := emit st ("  " ++ val ++ " = load i64, i64* " ++ val_ptr)
                  let (st, var_ptr) := new_temp st
                  let st := emit st ("  " ++ var_ptr ++ " = alloca i64")
                  let st := emit st ("  store i64 " ++ val ++ ", i64* " ++ var_ptr)
                  let meta : VarMetadata :=
                    { llvm_name := var_ptr, var_type := "int", is_heap := false,
                      array_size := Option.none, is_string_literal := false }
                  let vars := assocInsert st.current_function_vars b meta
                  { st with current_function_vars := vars }
              | Option.none => st
            let st := { st with block_terminated := false }
            let (st, _) := gen_node o st body
            if !st.block_terminated then emit st ("  br label %" ++ end_label) else st
        | .Wildcard =>
            let st := emit st ("  br label %" ++ arm_label)
            let st := emit st (arm_label ++ ":")
            let st := { st with block_terminated := false }
            let (st, _) := gen_node o st body
            if !st.block_terminated then emit st ("  br label %" ++ end_label) else st
        | .Identifier _ =>
            let st := emit st ("  br label %" ++ arm_label)
            let st := emit st (arm_label ++ ":")
            let st := { st with block_terminated := false }
            let (st, _) := gen_node o st body
            if !st.block_terminated then emit st ("  br label %" ++ end_label) else st
        | _ => st
      let st := if !is_last then emit st (next_label ++ ":") else st
      genArmsEnum o st value_reg tag end_label (i + 1) rest

/-- The integer/string-dispatch arm loop of `AstNode::Match`. -/
def genArmsPlain (o : VarOrder) (st : Gen) (value_reg end_label : String)
    (i : Nat) : ArmList → Gen
  | .nil => st
  | .cons pattern body rest =>
      let is_last := match rest with | .nil => true | _ => false
      let (st, arm_label) := new_label st ("match_arm_" ++ toString i)
      let (st, next_label) :=
        if !is_last then new_label st ("match_check_" ++ toString (i + 1))
        else (st, end_label)
      let st :=
        match pattern with
        | .NumberPattern n =>
            let (st, cond) := new_temp st
            let st := emit st ("  " ++ cond ++ " = icmp eq i64 " ++ value_reg ++ ", " ++
              toString n)
            let st := emit st ("  br i1 " ++ cond ++ ", label %" ++ arm_label ++
              ", label %" ++ next_label)
            let st := emit st (arm_label ++ ":")
            let st := { st with block_terminated := false }
            let (st, _) := gen_node o st body
            if !st.block_terminated then emit st ("  br label %" ++ end_label) else st
        | .StringPattern s =>
            let (st, str_id) := new_string_literal st s
            let str_len := s.utf8ByteSize + 1
            let (st, str_ptr) := new_temp st
            let st := emit st ("  " ++ str_ptr ++ " = getelementptr inbounds [" ++
              toString str_len ++ " x i8], [" ++ toString str_len ++ " x i8]* @" ++
              str_id ++ ", i64 0, i64 0")
            let (st, cmp_result) := new_temp st
            let st := emit st ("  " ++ cmp_result ++ " = call i32 @strcmp(i8* " ++
              value_reg ++ ", i8* " ++ str_ptr ++ ")")
            let (st, cond) := new_temp st
            let st := emit st ("  " ++ cond ++ " = icmp eq i32 " ++ cmp_result ++ ", 0")
            let st := emit st ("  br i1 " ++ cond ++ ", label %" ++ arm_label ++
              ", label %" ++ next_label)
            let st := emit st (arm_label ++ ":")
            let st := { st with block_terminated := false }
            let (st, _) := gen_node o st body
            if !st.block_terminated then emit st ("  br label %" ++ end_label) else st
        | .Wildcard =>
            let st := emit st ("  br label %" ++ arm_label)
            let st := emit st (arm_label ++ ":")
            let st := { st with block_terminated := false }
            let (st, _) := gen_node o st body
            if !st.block_terminated then emit st ("  br label %" ++ end_label) else st
        | .Identifier _ =>
            let st := emit st ("  br label %" ++ arm_label)
            let st := emit st (arm_label ++ ":")
            let st := { st with block_terminated := false }
            let (st, _) := gen_node o st body
            if !st.block_terminated then emit st ("  br label %" ++ end_label) else st
        | _ => st
      let st := if !is_last then emit st (next_label ++ ":") else st
      genArmsPlain o st value_reg end_label (i + 1) rest

/-- The user-call argument loop of `AstNode::Call` (default arm): builds
`arg_regs` and `arg_types`, defensively copying by-value string arguments. -/
def genCallArgs (o : VarOrder) (st : Gen) : AstList → Gen × List String × List String
  | .nil => (st, [], [])
  | .cons (.Reference (.Identifier var_name)) rest =>
      let (st, reg, ty) :=
        match assocGet st.current_function_vars var_name with
        | Option.some meta =>
            (match meta.array_size with
             | Option.some size =>
                 (st, meta.llvm_name, "[" ++ toString size ++ " x i64]*")
             | Option.none =>
                 if meta.var_type == "string" then
                   let (st, loaded) := new_temp st
                   let st := emit st ("  " ++ loaded ++ " = load i8*, i8** " ++
                     meta.llvm_name)
                   (st, loaded, "i8*")
                 else
                   (st, meta.llvm_name, type_to_llvm st meta.var_type ++ "*"))
        | Option.none => (st, "null", "i8*")
      let (st, regs, tys) := genCallArgs o st rest
      (st, reg :: regs, ty :: tys)
  | .cons (.Reference inner) rest =>
      let (st, reg) := gen_node o st inner
      let (st, regs, tys) := genCallArgs o st rest
      (st, reg :: regs, "i8*" :: tys)
  | .cons arg_node rest =>
      let (st, reg, ty) :=
        let (st, reg) := gen_node o st arg_node
        let arg_type := infer_type st arg_node
        if arg_type == "string" then
          let (st, len) := new_temp st
          let (st, len1) := new_temp st
          let (st, copy) := new_temp st
          let (st, copied) := new_temp st
          let st := emit st ("  " ++ len ++ " = call i64 @strlen(i8* " ++ reg ++ ")")
          let st := emit st ("  " ++ len1 ++ " = add i64 " ++ len ++ ", 1")
          let st := emit st ("  " ++ copy ++ " = call i8* @malloc(i64 " ++ len1 ++ ")")
          let st := emit st ("  " ++ copied ++ " = call i8* @strcpy(i8* " ++ copy ++
            ", i8* " ++ reg ++ ")")
          (st, copy, type_to_llvm st arg_type)
        else
          (st, reg, type_to_llvm st arg_type)
      let (st, regs, tys) := genCallArgs o st rest
      (st, reg :: regs, ty :: tys)

/-- The element-store loop of `AstNode::ArrayLit`. -/
def genArrayElems (o : VarOrder) (st : Gen) (size : Nat) (ptr : String)
    (i : Nat) : AstList → Gen
  | .nil => st
  | .cons elem rest =>
      let (st, value) := gen_node o st elem
      let (st, elem_ptr) := new_temp st
      let st := emit st ("  " ++ elem_ptr ++ " = getelementptr [" ++ toString size ++
        " x i64], [" ++ toString size ++ " x i64]* " ++ ptr ++ ", i64 0, i64 " ++
        toString i)
      let st := emit st ("  store i64 " ++ value ++ ", i64* " ++ elem_ptr)
      genArrayElems o st size ptr (i + 1) rest
end

mutual
/-- `CodeGenerator::collect_calls`: append every direct call-site target to
the worklist, in traversal order. -/
def collect_calls (q : List String) : AstNode → List String
  | .Call name args => collectCallsList (q ++ [name]) args
  | .Block stmts => collectCallsList q stmts
  | .Program stmts => collectCallsList q stmts
  | .FunctionDef _ _ body _ _ => collect_calls q body
  | .LetBinding _ value _ => collect_calls q value
  | .Assignment _ value => collect_calls q value
  | .ArrayAssignment _ index value => collect_calls (collect_calls q index) value
  | .If c t e => collectCallsOpt (collect_calls (collect_calls q c) t) e
  | .While c b => collect_calls (collect_calls q c) b
  | .For _ it b => collect_calls (collect_calls q it) b
  | .Return (.some n) => collect_calls q n
  | .BinaryOp _ l r => collect_calls (collect_calls q l) r
  | .UnaryOp _ e => collect_calls q e
  | .ExpressionStatement e => collect_calls q e
  | .Match v arms => collectCallsArms (collect_calls q v) arms
  | .ArrayLit es => collectCallsList q es
  | .StructInit _ fs => collectCallsFields q fs
  | .Index a i => collect_calls (collect_calls q a) i
  | .Reference e => collect_calls q e
  | .EnumValue _ _ (.some e) => collect_calls q e
  | .MethodCall obj _ args => collectCallsList (collect_calls q obj) args
  | .MemberAccess obj _ => collect_calls q obj
  | _ => q

/-- List helper for `collect_calls`. -/
def collectCallsList (q : List String) : AstList → List String
  | .nil => q
  | .cons a rest => collectCallsList (collect_calls q a) rest

/-- Option helper for `collect_calls`. -/
def collectCallsOpt (q : List String) : AstOpt → List String
  | .none => q
  | .some e => collect_calls q e

/-- Arm helper for `collect_calls` (arm bodies). -/
def collectCallsArms (q : List String) : ArmList → List String
  | .nil => q
  | .cons _ body rest => collectCallsArms (collect_calls q body) rest

/-- Field helper for `collect_calls`. -/
def collectCallsFields (q : List String) : FieldList → List String
  | .nil => q
  | .cons _ v rest => collectCallsFields (collect_calls q v) rest
end

/-- The `fn_bodies` map of `collect_reachable`: top-level function bodies
keyed by name (`HashMap` collect: a duplicate name keeps the later body). -/
def fnBodies (acc : List (String × AstNode)) : AstList → List (String × AstNode)
  | .nil => acc
  | .cons n rest =>
      match n with
      | .FunctionDef name _ body _ _ => fnBodies (assocInsert acc name body) rest
      | _ => fnBodies acc rest

/-- The worklist loop of `collect_reachable`.  The Rust loop pops from the
end of the `Vec` queue; the `fuel` argument bounds the iteration count — the
caller passes `1 + (total number of call sites) + 1`, which exceeds the total
number of pops (`1` initial entry plus at most one push per call site of a
processed body), so the fuel is never exhausted. -/
def reachLoop (bodies : List (String × AstNode)) :
    Nat → List String → List String → List String
  | 0, _, reachable => reachable
  | fuel + 1, queue, reachable =>
      match queue.getLast? with
      | Option.none => reachable
      | Option.some current =>
          let queue := queue.dropLast
          if reachable.contains current then reachLoop bodies fuel queue reachable
          else
            let reachable := reachable ++ [current]
            match assocGet bodies current with
            | Option.some body => reachLoop bodies fuel (collect_calls queue body) reachable
            | Option.none => reachLoop bodies fuel queue reachable

/-- `CodeGenerator::collect_reachable`: transitive closure of call edges from
`"main"`. -/
def collect_reachable (nodes : AstList) : List String :=
  reachLoop (fnBodies [] nodes)
    ((collect_calls [] (.Program nodes)).length + 2) ["main"] []

/-- The fixed runtime prelude emitted by `CodeGenerator::emit_header` for the
Linux configuration (the default `cfg!` branch): syscall declaration, the
brk-based bump allocator, pure-IR string primitives, I/O wrappers, the two
integer-to-decimal routines, `brn_print_int`, file helpers and the vector
operations.  Transcribed line for line from the source. -/
def headerLines : List String := [
  "declare i64 @syscall(i64, ...)",
  "",
  "@brn_heap_end = global i8* null",
  "@brn_heap_start = global i8* null",
  "",
  "define i8* @malloc(i64 %size) \x7b",
  "  %cur = load i8*, i8** @brn_heap_end",
  "  %is_null = icmp eq i8* %cur, null",
  "  br i1 %is_null, label %init, label %alloc",
  "init:",
  "  %brk0 = call i64 (i64, ...) @syscall(i64 12, i64 0)",
  "  %start = inttoptr i64 %brk0 to i8*",
  "  store i8* %start, i8** @brn_heap_start",
  "  store i8* %start, i8** @brn_heap_end",
  "  br label %alloc",
  "alloc:",
  "  %base = load i8*, i8** @brn_heap_end",
  "  %base_i = ptrtoint i8* %base to i64",
  "  %align7 = add i64 %size, 7",
  "  %aligned = and i64 %align7, -8",
  "  %new_end_i = add i64 %base_i, %aligned",
  "  %new_end = inttoptr i64 %new_end_i to i8*",
  "  call i64 (i64, ...) @syscall(i64 12, i64 %new_end_i)",
  "  store i8* %new_end, i8** @brn_heap_end",
  "  ret i8* %base",
  "\x7d",
  "",
  "define i8* @realloc(i8* %ptr, i64 %size) \x7b",
  "  %new = call i8* @malloc(i64 %size)",
  "  br label %rc_loop",
  "rc_loop:",
  "  %rc_i = phi i64 [ 0, %0 ], [ %rc_next, %rc_loop ]",
  "  %rc_done = icmp eq i64 %rc_i, %size",
  "  br i1 %rc_done, label %rc_exit, label %rc_copy",
  "rc_copy:",
  "  %rc_sp = getelementptr i8, i8* %ptr, i64 %rc_i",
  "  %rc_dp = getelementptr i8, i8* %new, i64 %rc_i",
  "  %rc_byte = load i8, i8* %rc_sp",
  "  store i8 %rc_byte, i8* %rc_dp",
  "  %rc_next = add i64 %rc_i, 1",
  "  br label %rc_loop",
  "rc_exit:",
  "  ret i8* %new",
  "\x7d",
  "",
  "define void @free(i8* %ptr) \x7b",
  "  ret void",
  "\x7d",
  "",
  "define i64 @strlen(i8* %s) \x7b",
  "sl_entry:",
  "  br label %sl_loop",
  "sl_loop:",
  "  %sl_i = phi i64 [ 0, %sl_entry ], [ %sl_next, %sl_loop ]",
  "  %sl_p = getelementptr i8, i8* %s, i64 %sl_i",
  "  %sl_c = load i8, i8* %sl_p",
  "  %sl_done = icmp eq i8 %sl_c, 0",
  "  %sl_next = add i64 %sl_i, 1",
  "  br i1 %sl_done, label %sl_exit, label %sl_loop",
  "sl_exit:",
  "  ret i64 %sl_i",
  "\x7d",
  "",
  "define i32 @strcmp(i8* %a, i8* %b) \x7b",
  "sc_entry:",
  "  br label %sc_loop",
  "sc_loop:",
  "  %sc_i = phi i64 [ 0, %sc_entry ], [ %sc_next, %sc_cont ]",
  "  %sc_pa = getelementptr i8, i8* %a, i64 %sc_i",
  "  %sc_pb = getelementptr i8, i8* %b, i64 %sc_i",
  "  %sc_ca = load i8, i8* %sc_pa",
  "  %sc_cb = load i8, i8* %sc_pb",
  "  %sc_za = icmp eq i8 %sc_ca, 0",
  "  %sc_zb = icmp eq i8 %sc_cb, 0",
  "  %sc_end = or i1 %sc_za, %sc_zb",
  "  br i1 %sc_end, label %sc_exit, label %sc_cont",
  "sc_cont:",
  "  %sc_eq = icmp eq i8 %sc_ca, %sc_cb",
  "  %sc_next = add i64 %sc_i, 1",
  "  br i1 %sc_eq, label %sc_loop, label %sc_diff",
  "sc_diff:",
  "  %sc_da = sext i8 %sc_ca to i32",
  "  %sc_db = sext i8 %sc_cb to i32",
  "  %sc_r = sub i32 %sc_da, %sc_db",
  "  ret i32 %sc_r",
  "sc_exit:",
  "  %sc_fa = sext i8 %sc_ca to i32",
  "  %sc_fb = sext i8 %sc_cb to i32",
  "  %sc_fr = sub i32 %sc_fa, %sc_fb",
  "  ret i32 %sc_fr",
  "\x7d",
  "",
  "define i8* @strcpy(i8* %dst, i8* %src) \x7b",
  "sy_entry:",
  "  br label %sy_loop",
  "sy_loop:",
  "  %sy_i = phi i64 [ 0, %sy_entry ], [ %sy_next, %sy_loop ]",
  "  %sy_ps = getelementptr i8, i8* %src, i64 %sy_i",
  "  %sy_pd = getelementptr i8, i8* %dst, i64 %sy_i",
  "  %sy_c = load i8, i8* %sy_ps",
  "  store i8 %sy_c, i8* %sy_pd",
  "  %sy_done = icmp eq i8 %sy_c, 0",
  "  %sy_next = add i64 %sy_i, 1",
  "  br i1 %sy_done, label %sy_exit, label %sy_loop",
  "sy_exit:",
  "  ret i8* %dst",
  "\x7d",
  "",
  "define i32 @puts(i8* %s) \x7b",
  "  %pt_len = call i64 @strlen(i8* %s)",
  "  call i64 (i64, ...) @syscall(i64 1, i64 1, i8* %s, i64 %pt_len)",
  "  %pt_nl = alloca i8",
  "  store i8 10, i8* %pt_nl",
  "  call i64 (i64, ...) @syscall(i64 1, i64 1, i8* %pt_nl, i64 1)",
  "  ret i32 0",
  "\x7d",
  "",
  "define i8* @fopen(i8* %filename, i8* %mode) \x7b",
  "fo_entry:",
  "  %fo_mc = load i8, i8* %mode",
  "  %fo_isw = icmp eq i8 %fo_mc, 119",
  "  br i1 %fo_isw, label %fo_write, label %fo_read",
  "fo_write:",
  "  %fo_wfd = call i64 (i64, ...) @syscall(i64 2, i8* %filename, i64 577, i64 420)",
  "  %fo_wh = inttoptr i64 %fo_wfd to i8*",
  "  ret i8* %fo_wh",
  "fo_read:",
  "  %fo_rfd = call i64 (i64, ...) @syscall(i64 2, i8* %filename, i64 0, i64 0)",
  "  %fo_rh = inttoptr i64 %fo_rfd to i8*",
  "  ret i8* %fo_rh",
  "\x7d",
  "",
  "define i32 @fclose(i8* %handle) \x7b",
  "  %fc_fd = ptrtoint i8* %handle to i64",
  "  call i64 (i64, ...) @syscall(i64 3, i64 %fc_fd)",
  "  ret i32 0",
  "\x7d",
  "",
  "define i64 @fread(i8* %buf, i64 %sz, i64 %count, i8* %handle) \x7b",
  "  %fr_fd = ptrtoint i8* %handle to i64",
  "  %fr_total = mul i64 %sz, %count",
  "  %fr_n = call i64 (i64, ...) @syscall(i64 0, i64 %fr_fd, i8* %buf, i64 %fr_total)",
  "  ret i64 %fr_n",
  "\x7d",
  "",
  "define i64 @fwrite(i8* %buf, i64 %sz, i64 %count, i8* %handle) \x7b",
  "  %fw_fd = ptrtoint i8* %handle to i64",
  "  %fw_total = mul i64 %sz, %count",
  "  %fw_n = call i64 (i64, ...) @syscall(i64 1, i64 %fw_fd, i8* %buf, i64 %fw_total)",
  "  ret i64 %fw_n",
  "\x7d",
  "",
  "define i32 @fseek(i8* %handle, i64 %offset, i32 %whence) \x7b",
  "  %fsk_fd = ptrtoint i8* %handle to i64",
  "  %fsk_wh = sext i32 %whence to i64",
  "  call i64 (i64, ...) @syscall(i64 8, i64 %fsk_fd, i64 %offset, i64 %fsk_wh)",
  "  ret i32 0",
  "\x7d",
  "",
  "define i64 @ftell(i8* %handle) \x7b",
  "  %ft_fd = ptrtoint i8* %handle to i64",
  "  %ft_pos = call i64 (i64, ...) @syscall(i64 8, i64 %ft_fd, i64 0, i64 1)",
  "  ret i64 %ft_pos",
  "\x7d",
  "",
  "define i8* @int_to_string_stack(i64 %n, i8* %buf) \x7b",
  "its2_entry:",
  "  %its2_iszero = icmp eq i64 %n, 0",
  "  br i1 %its2_iszero, label %its2_zero, label %its2_nonzero",
  "its2_zero:",
  "  %its2_zp = getelementptr i8, i8* %buf, i64 30",
  "  store i8 48, i8* %its2_zp",
  "  %its2_zt = getelementptr i8, i8* %buf, i64 31",
  "  store i8 0, i8* %its2_zt",
  "  ret i8* %its2_zp",
  "its2_nonzero:",
  "  %its2_isneg = icmp slt i64 %n, 0",
  "  %its2_neg = sub i64 0, %n",
  "  %its2_abs = select i1 %its2_isneg, i64 %its2_neg, i64 %n",
  "  %its2_term = getelementptr i8, i8* %buf, i64 31",
  "  store i8 0, i8* %its2_term",
  "  br label %its2_loop",
  "its2_loop:",
  "  %its2_cur = phi i64 [ %its2_abs, %its2_nonzero ], [ %its2_quot, %its2_loop ]",
  "  %its2_pos = phi i64 [ 30, %its2_nonzero ], [ %its2_prev, %its2_loop ]",
  "  %its2_rem = srem i64 %its2_cur, 10",
  "  %its2_quot = sdiv i64 %its2_cur, 10",
  "  %its2_ascii = add i64 %its2_rem, 48",
  "  %its2_ch = trunc i64 %its2_ascii to i8",
  "  %its2_wp = getelementptr i8, i8* %buf, i64 %its2_pos",
  "  store i8 %its2_ch, i8* %its2_wp",
  "  %its2_prev = sub i64 %its2_pos, 1",
  "  %its2_done = icmp eq i64 %its2_quot, 0",
  "  br i1 %its2_done, label %its2_finish, label %its2_loop",
  "its2_finish:",
  "  br i1 %its2_isneg, label %its2_addneg, label %its2_ret",
  "its2_addneg:",
  "  %its2_np = getelementptr i8, i8* %buf, i64 %its2_prev",
  "  store i8 45, i8* %its2_np",
  "  ret i8* %its2_np",
  "its2_ret:",
  "  %its2_rp = getelementptr i8, i8* %buf, i64 %its2_pos",
  "  ret i8* %its2_rp",
  "\x7d",
  "",
  "define i8* @int_to_string_impl(i64 %n) \x7b",
  "its_entry:",
  "  %its_buf = call i8* @malloc(i64 32)",
  "  %its_iszero = icmp eq i64 %n, 0",
  "  br i1 %its_iszero, label %its_zero, label %its_nonzero",
  "its_zero:",
  "  %its_zp = getelementptr i8, i8* %its_buf, i64 30",
  "  store i8 48, i8* %its_zp",
  "  %its_term = getelementptr i8, i8* %its_buf, i64 31",
  "  store i8 0, i8* %its_term",
  "  ret i8* %its_zp",
  "its_nonzero:",
  "  %its_isneg = icmp slt i64 %n, 0",
  "  %its_neg = sub i64 0, %n",
  "  %its_abs = select i1 %its_isneg, i64 %its_neg, i64 %n",
  "  %its_term2 = getelementptr i8, i8* %its_buf, i64 31",
  "  store i8 0, i8* %its_term2",
  "  br label %its_loop",
  "its_loop:",
  "  %its_cur = phi i64 [ %its_abs, %its_nonzero ], [ %its_quot, %its_loop ]",
  "  %its_pos = phi i64 [ 30, %its_nonzero ], [ %its_prev, %its_loop ]",
  "  %its_rem = srem i64 %its_cur, 10",
  "  %its_quot = sdiv i64 %its_cur, 10",
  "  %its_ascii = add i64 %its_rem, 48",
  "  %its_ch = trunc i64 %its_ascii to i8",
  "  %its_wp = getelementptr i8, i8* %its_buf, i64 %its_pos",
  "  store i8 %its_ch, i8* %its_wp",
  "  %its_prev = sub i64 %its_pos, 1",
  "  %its_done = icmp eq i64 %its_quot, 0",
  "  br i1 %its_done, label %its_finish, label %its_loop",
  "its_finish:",
  "  br i1 %its_isneg, label %its_addneg, label %its_ret",
  "its_addneg:",
  "  %its_np = getelementptr i8, i8* %its_buf, i64 %its_prev",
  "  store i8 45, i8* %its_np",
  "  ret i8* %its_np",
  "its_ret:",
  "  %its_rp = getelementptr i8, i8* %its_buf, i64 %its_pos",
  "  ret i8* %its_rp",
  "\x7d",
  "",
  "define void @brn_print_int(i64 %n) \x7b",
  "  %bpi_str = call i8* @int_to_string_impl(i64 %n)",
  "  %bpi_len = call i64 @strlen(i8* %bpi_str)",
  "  call i64 (i64, ...) @syscall(i64 1, i64 1, i8* %bpi_str, i64 %bpi_len)",
  "  %bpi_nl = alloca i8",
  "  store i8 10, i8* %bpi_nl",
  "  call i64 (i64, ...) @syscall(i64 1, i64 1, i8* %bpi_nl, i64 1)",
  "  ret void",
  "\x7d",
  "",
  "define i8* @read_file_impl(i8* %filename) \x7b",
  "  %rf_mode = getelementptr inbounds [2 x i8], [2 x i8]* @.str.mode.r, i64 0, i64 0",
  "  %rf_file = call i8* @fopen(i8* %filename, i8* %rf_mode)",
  "  %rf_null = icmp eq i8* %rf_file, null",
  "  br i1 %rf_null, label %rf_error, label %rf_read",
  "rf_error:",
  "  ret i8* null",
  "rf_read:",
  "  call i32 @fseek(i8* %rf_file, i64 0, i32 2)",
  "  %rf_size = call i64 @ftell(i8* %rf_file)",
  "  call i32 @fseek(i8* %rf_file, i64 0, i32 0)",
  "  %rf_sz1 = add i64 %rf_size, 1",
  "  %rf_buf = call i8* @malloc(i64 %rf_sz1)",
  "  call i64 @fread(i8* %rf_buf, i64 1, i64 %rf_size, i8* %rf_file)",
  "  %rf_np = getelementptr i8, i8* %rf_buf, i64 %rf_size",
  "  store i8 0, i8* %rf_np",
  "  call i32 @fclose(i8* %rf_file)",
  "  ret i8* %rf_buf",
  "\x7d",
  "",
  "define i32 @write_file_impl(i8* %filename, i8* %content) \x7b",
  "  %wf_mode = getelementptr inbounds [2 x i8], [2 x i8]* @.str.mode.w, i64 0, i64 0",
  "  %wf_file = call i8* @fopen(i8* %filename, i8* %wf_mode)",
  "  %wf_null = icmp eq i8* %wf_file, null",
  "  br i1 %wf_null, label %wf_error, label %wf_write",
  "wf_error:",
  "  ret i32 0",
  "wf_write:",
  "  %wf_len = call i64 @strlen(i8* %content)",
  "  call i64 @fwrite(i8* %content, i64 1, i64 %wf_len, i8* %wf_file)",
  "  call i32 @fclose(i8* %wf_file)",
  "  ret i32 1",
  "\x7d",
  "",
  "define i8* @vec_new_impl() \x7b",
  "  %vn_hdr = call i8* @malloc(i64 24)",
  "  %vn_lp = bitcast i8* %vn_hdr to i64*",
  "  store i64 0, i64* %vn_lp",
  "  %vn_cp_raw = getelementptr i8, i8* %vn_hdr, i64 8",
  "  %vn_cp = bitcast i8* %vn_cp_raw to i64*",
  "  store i64 4, i64* %vn_cp",
  "  %vn_buf = call i8* @malloc(i64 32)",
  "  %vn_dp_raw = getelementptr i8, i8* %vn_hdr, i64 16",
  "  %vn_dp = bitcast i8* %vn_dp_raw to i8**",
  "  store i8* %vn_buf, i8** %vn_dp",
  "  ret i8* %vn_hdr",
  "\x7d",
  "",
  "define void @vec_push_impl(i8* %vec, i64 %val) \x7b",
  "  %vp_lp = bitcast i8* %vec to i64*",
  "  %vp_len = load i64, i64* %vp_lp",
  "  %vp_cp_raw = getelementptr i8, i8* %vec, i64 8",
  "  %vp_cap_ptr = bitcast i8* %vp_cp_raw to i64*",
  "  %vp_cap = load i64, i64* %vp_cap_ptr",
  "  %vp_need = icmp eq i64 %vp_len, %vp_cap",
  "  br i1 %vp_need, label %vp_grow, label %vp_store",
  "vp_grow:",
  "  %vp_nc = mul i64 %vp_cap, 2",
  "  %vp_nb = mul i64 %vp_nc, 8",
  "  %vp_dpp_raw = getelementptr i8, i8* %vec, i64 16",
  "  %vp_dpp = bitcast i8* %vp_dpp_raw to i8**",
  "  %vp_old = load i8*, i8** %vp_dpp",
  "  %vp_new = call i8* @realloc(i8* %vp_old, i64 %vp_nb)",
  "  store i8* %vp_new, i8** %vp_dpp",
  "  store i64 %vp_nc, i64* %vp_cap_ptr",
  "  br label %vp_store",
  "vp_store:",
  "  %vp_dp2_raw = getelementptr i8, i8* %vec, i64 16",
  "  %vp_dp2 = bitcast i8* %vp_dp2_raw to i8**",
  "  %vp_data = load i8*, i8** %vp_dp2",
  "  %vp_di64 = bitcast i8* %vp_data to i64*",
  "  %vp_elem = getelementptr i64, i64* %vp_di64, i64 %vp_len",
  "  store i64 %val, i64* %vp_elem",
  "  %vp_nl = add i64 %vp_len, 1",
  "  store i64 %vp_nl, i64* %vp_lp",
  "  ret void",
  "\x7d",
  "",
  "define i64 @vec_get_impl(i8* %vec, i64 %idx) \x7b",
  "  %vg_dp_raw = getelementptr i8, i8* %vec, i64 16",
  "  %vg_dp = bitcast i8* %vg_dp_raw to i8**",
  "  %vg_data = load i8*, i8** %vg_dp",
  "  %vg_di64 = bitcast i8* %vg_data to i64*",
  "  %vg_ep = getelementptr i64, i64* %vg_di64, i64 %idx",
  "  %vg_val = load i64, i64* %vg_ep",
  "  ret i64 %vg_val",
  "\x7d",
  "",
  "define void @vec_set_impl(i8* %vec, i64 %idx, i64 %val) \x7b",
  "  %vs_dp_raw = getelementptr i8, i8* %vec, i64 16",
  "  %vs_dp = bitcast i8* %vs_dp_raw to i8**",
  "  %vs_data = load i8*, i8** %vs_dp",
  "  %vs_di64 = bitcast i8* %vs_data to i64*",
  "  %vs_ep = getelementptr i64, i64* %vs_di64, i64 %idx",
  "  store i64 %val, i64* %vs_ep",
  "  ret void",
  "\x7d",
  "",
  "define i64 @vec_len_impl(i8* %vec) \x7b",
  "  %vl_lp = bitcast i8* %vec to i64*",
  "  %vl_len = load i64, i64* %vl_lp",
  "  ret i64 %vl_len",
  "\x7d",
  ""
]

/-- `CodeGenerator::emit_header` (Linux): append the prelude and register the
two file-mode literals. -/
def emit_header (st : Gen) : Gen :=
  let st := { st with output := st.output ++ headerLines }
  { st with string_literals := st.string_literals ++ [(".str.mode.r", "r"), (".str.mode.w", "w")] }

/-- `CodeGenerator::emit_footer`: each global string constant, then each
struct type declaration, is *prepended* to the output (the declarations are
walked in reverse, so they end up first and in registration order). -/
def emit_footer (st : Gen) : Gen :=
  let st := st.string_literals.foldl
    (fun st p =>
      let len := p.2.utf8ByteSize + 1
      let escaped := escape_string p.2
      let line := "@" ++ p.1 ++ " = private unnamed_addr constant [" ++ toString len ++
        " x i8] c\"" ++ escaped ++ "\\00\", align 1"
      { st with output := line :: st.output }) st
  st.struct_decls.reverse.foldl (fun st d => { st with output := d :: st.output }) st

/-- The initial sweep of `generate` registering struct types. -/
def registerStructs (st : Gen) : AstList → Gen
  | .nil => st
  | .cons n rest =>
      match n with
      | .StructDef name fields =>
          let field_info := fields.map (fun f => (f.name, f.field_type))
          let types := assocInsert st.struct_types name field_info
          registerStructs { st with struct_types := types } rest
      | _ => registerStructs st rest

/-- The second sweep of `generate`, recording functions classified pure. -/
def registerPurity (st : Gen) : AstList → Gen
  | .nil => st
  | .cons n rest =>
      match n with
      | .FunctionDef name params body _ _ =>
          if infer_purity params body then
            registerPurity { st with pure_functions := setInsert st.pure_functions name } rest
          else registerPurity st rest
      | _ => registerPurity st rest

/-- The struct-declaration loop of `generate`: iterates the struct-type
`HashMap` in the order `oS` and pushes one `%Name = type { ... }` line per
entry. -/
def buildStructDecls (oS : StructOrder) (st : Gen) : Gen :=
  (oS st.struct_types).foldl
    (fun st p =>
      let field_types := p.2.map (fun f => type_to_llvm st f.2)
      let decl := "%" ++ p.1 ++ " = type \x7b " ++ String.intercalate ", " field_types ++ " \x7d"
      { st with struct_decls := st.struct_decls ++ [decl] }) st

/-- The main lowering loop of `generate`: functions and top-level lets are
emitted only when reachable. -/
def genTop (o : VarOrder) (reachable : List String) (st : Gen) : AstList → Gen
  | .nil => st
  | .cons node rest =>
      let st :=
        match node with
        | .FunctionDef name _ _ _ _ =>
            if reachable.contains name then (gen_node o st node).1 else st
        | .LetBinding name _ _ =>
            if reachable.contains name then (gen_node o st node).1 else st
        | _ => (gen_node o st node).1
      genTop o reachable st rest

/-- `CodeGenerator::generate`, from a fresh generator (`CodeGenerator::new`).
`oS` and `oV` are the iteration orders of the two `HashMap` iteration sites
(struct-type table, per-function variable map). -/
def generate (oS : StructOrder) (oV : VarOrder) (ast : AstNode) : Gen :=
  let st : Gen := {}
  let st := match ast with | .Program nodes => registerStructs st nodes | _ => st
  let st := match ast with | .Program nodes => registerPurity st nodes | _ => st
  let reachable := match ast with | .Program nodes => collect_reachable nodes | _ => ([] : List String)
  let st := buildStructDecls oS st
  let st := emit_header st
  let st := match ast with | .Program nodes => genTop oV reachable st nodes | _ => st
  emit_footer st

/-- `CodeGenerator::build_output`: the target-triple header followed by the
emitted lines (each `emit` appended a trailing newline). -/
def build_output (st : Gen) : String :=
  "target triple = \"x86_64-pc-linux-gnu\"\n\n" ++
    st.output.foldl (fun acc line => acc ++ line ++ "\n") ""

/-- `CodeGenerator::gen_function`, as invoked by `generate` on a top-level
definition (the body of the Rust method is the `FunctionDef` case of
`gen_node` above). -/
def gen_function (o : VarOrder) (st : Gen) (name : String) (params : List Parameter)
    (body : AstNode) (return_type : Option String) : Gen × String :=
  gen_node o st (.FunctionDef name params body return_type false)

end CodeGenerator

/-! ## Semantic model of the emitted integer-to-decimal routines

`int_to_string_stack` and `int_to_string_impl` are fixed IR functions emitted
by `emit_header` (their text is in `headerLines`).  The model below executes
their algorithm over mathematical integers: `i64` values are integers with
wrap-around made explicit, `sdiv`/`srem` are `Int.tdiv`/`Int.tmod` (LLVM
division truncates toward zero and the remainder takes the dividend's sign),
and the 32-byte buffer is a function from (pointer-offset) positions to byte
values, arbitrary where never written. -/

/-- Two's-complement wrap-around to the `i64` range. -/
def wrap64 (x : Int) : Int := (x + 2 ^ 63) % 2 ^ 64 - 2 ^ 63

/-- Point update of a byte buffer. -/
def updateBuf (buf : Int → Nat) (p : Int) (v : Nat) : Int → Nat :=
  fun j => if j = p then v else buf j

/-- The digit loop shared by both routines (`its2_loop` / `its_loop`): write
`srem cur 10 + 48`, truncated to a byte, at `pos`; continue at `pos - 1` with
`sdiv cur 10` until the quotient is zero.  Returns the final buffer together
with the last written position (`its2_pos`) and the position below it
(`its2_prev`).  The loop in the IR is unbounded; `fuel` is an iteration bound
and the value `64` passed by the entry points below is never exhausted for
`i64` inputs (at most 20 digits), as the correctness theorem shows.  The
byte stored is `rem + 48`, which lies in `[39, 57]` for every possible
remainder, so the `i8` truncation never wraps. -/
def digitLoop : Nat → (Int → Nat) → Int → Int → Option ((Int → Nat) × Int × Int)
  | 0, _, _, _ => Option.none
  | fuel + 1, buf, cur, pos =>
      let rem := Int.tmod cur 10
      let quot := Int.tdiv cur 10
      let buf := updateBuf buf pos (rem + 48).toNat
      if quot = 0 then Option.some (buf, pos, pos - 1)
      else digitLoop fuel buf quot (pos - 1)

/-- The emitted `@int_to_string_stack(i64 %n, i8* %buf)`: zero is
special-cased to `"0"` at offset 30; otherwise the absolute value is computed
as `select(n < 0, 0 - n, n)` with wrap-around, the NUL is stored at offset
31, the digit loop fills backwards from offset 30, and a `-` is prefixed at
`its2_prev` for negative `n`.  The returned integer is the offset of the
first character (the returned pointer minus the buffer base). -/
def int_to_string_stack (n : Int) (buf : Int → Nat) : Option ((Int → Nat) × Int) :=
  if n = 0 then
    let buf := updateBuf buf 30 48
    let buf := updateBuf buf 31 0
    Option.some (buf, 30)
  else
    let isneg := n < 0
    let neg := wrap64 (0 - n)
    let abs := if isneg then neg else n
    let buf := updateBuf buf 31 0
    match digitLoop 64 buf abs 30 with
    | Option.none => Option.none
    | Option.some (buf, pos, prev) =>
        if isneg then
          let buf := updateBuf buf prev 45
          Option.some (buf, prev)
        else
          Option.some (buf, pos)

/-- The emitted `@int_to_string_impl(i64 %n)`: identical digit scheme, with
the 32-byte buffer heap-allocated (`malloc`) instead of caller-provided; the
parameter stands for the arbitrary initial contents of that allocation.  The
IR body is line for line the algorithm of `int_to_string_stack`. -/
def int_to_string_impl (n : Int) (heapBuf : Int → Nat) : Option ((Int → Nat) × Int) :=
  int_to_string_stack n heapBuf

/-- Read a NUL-terminated byte string from a buffer, with a step bound. -/
def readCStr (buf : Int → Nat) : Int → Nat → List Nat
  | _, 0 => []
  | p, fuel + 1 =>
      let b := buf p
      if b = 0 then [] else b :: readCStr buf (p + 1) fuel

/-- The NUL-terminated byte string at offset `p` of a 32-byte buffer (33
steps suffice: the terminator is at offset 31 or earlier). -/
def cstr (buf : Int → Nat) (p : Int) : List Nat := readCStr buf p 33

/-- Specification: the ASCII decimal digits of a natural number,
most-significant first (`0` is `"0"`). -/
def decDigitsAscii (m : Nat) : List Nat :=
  if m < 10 then [m + 48] else decDigitsAscii (m / 10) ++ [m % 10 + 48]
termination_by m
decreasing_by
  exact Nat.div_lt_self (by omega) (by omega)

/-- Specification: the ASCII bytes of the decimal representation of an
integer, `-` (45) prefixed for negatives. -/
def decimalAscii (n : Int) : List Nat :=
  if n < 0 then 45 :: decDigitsAscii (-n).toNat else decDigitsAscii n.toNat

/-! ## Checkers over emitted IR text

These definitions formalize the properties the claims state about the
*emitted IR*: basic-block well-formedness, the free instructions emitted
against a binding's slot, and the provenance of freed pointers.  They operate
on the emitted line lists. -/

/-- Drop the first `n` characters (by character data, so that the checkers
evaluate by kernel reduction; `String.drop` and friends do not). -/
def strDrop (s : String) (n : Nat) : String := String.mk (s.data.drop n)

/-- Drop the last `n` characters. -/
def strDropRight (s : String) (n : Nat) : String := String.mk (s.data.take (s.data.length - n))

/-- Character-data `String.starts_with`. -/
def strStartsWith (s p : String) : Bool := p.data.isPrefixOf s.data

/-- Character-data `String.ends_with`. -/
def strEndsWith (s p : String) : Bool := List.isSuffixOf p.data s.data

/-- Whether `p` occurs as a contiguous run inside `l`. -/
def listInfixOf (p : List Char) : List Char → Bool
  | [] => p.isPrefixOf []
  | c :: rest => p.isPrefixOf (c :: rest) || listInfixOf p rest

/-- Whether `p` occurs as a substring of `s` (Rust `str::contains`). -/
def strInfix (s p : String) : Bool := listInfixOf p.data s.data

/-- A label line (opens a new basic block). -/
def isLabelLine (l : String) : Bool := !(strStartsWith l "  ") && strEndsWith l ":"

/-- A block terminator instruction (`br`, `ret`, `unreachable`). -/
def isTerminatorLine (l : String) : Bool :=
  strStartsWith l "  br " || strStartsWith l "  ret " || l == "  unreachable"

/-- Scan: after a terminator, no instruction may appear before the next label
(or before leaving the function body). -/
def blocksWellFormedAux : Bool → List String → Bool
  | _, [] => true
  | terminated, l :: rest =>
      if isLabelLine l then blocksWellFormedAux false rest
      else if strStartsWith l "  " then
        if terminated then false
        else blocksWellFormedAux (isTerminatorLine l) rest
      else blocksWellFormedAux false rest

/-- No basic block of the emitted lines contains an instruction after its
terminator. -/
def blocksWellFormed (lines : List String) : Bool := blocksWellFormedAux false lines

/-- The operand registers of all emitted `call void @free(i8* _)` lines. -/
def freeTargets (lines : List String) : List String :=
  lines.filterMap (fun l =>
    if strStartsWith l "  call void @free(i8* " && strEndsWith l ")" then
      Option.some (strDropRight (strDrop l 22) 1)
    else Option.none)

/-- The right-hand side of the single definition of register `r` (emitted IR
is in SSA form, so at most one line defines each register). -/
def defRhs (lines : List String) (r : String) : Option String :=
  (lines.filterMap (fun l =>
    let pre := "  " ++ r ++ " = "
    if strStartsWith l pre then Option.some (strDrop l pre.length) else Option.none)).head?

/-- The value registers stored into a given `i8**` slot. -/
def storesInto (lines : List String) (slot : String) : List String :=
  lines.filterMap (fun l =>
    if strStartsWith l "  store i8* " && strEndsWith l (", i8** " ++ slot) then
      Option.some (strDropRight (strDrop l 12) (7 + slot.length))
    else Option.none)

/-- Whether an instruction text mentions a global string constant `@.str.`. -/
def mentionsStrGlobal (s : String) : Bool := strInfix s "@.str."

/-- Whether register `r` is derived from a global string constant: it is
defined by a `getelementptr inbounds` into an `@.str.` global, or it is a
load from a slot some store into which put a literal-derived register there
(bounded chase). -/
def derivesFromLit (lines : List String) : Nat → String → Bool
  | 0, _ => false
  | fuel + 1, r =>
      match defRhs lines r with
      | Option.some rhs =>
          if strStartsWith rhs "getelementptr inbounds " && mentionsStrGlobal rhs then true
          else if strStartsWith rhs "load i8*, i8** " then
            (storesInto lines (strDrop rhs 15)).any (fun v => derivesFromLit lines fuel v)
          else false
      | Option.none => false

/-- Whether register `r` is derived from a stack allocation (an `alloca`
result, possibly loaded back through a slot). -/
def derivesFromStackAlloca (lines : List String) : Nat → String → Bool
  | 0, _ => false
  | fuel + 1, r =>
      match defRhs lines r with
      | Option.some rhs =>
          if strStartsWith rhs "alloca " then true
          else if strStartsWith rhs "load i8*, i8** " then
            (storesInto lines (strDrop rhs 15)).any (fun v => derivesFromStackAlloca lines fuel v)
          else false
      | Option.none => false

/-- The operand registers of all `ret i8*` instructions. -/
def retOperands (lines : List String) : List String :=
  lines.filterMap (fun l =>
    if strStartsWith l "  ret i8* " then Option.some (strDrop l 10) else Option.none)

/-- How many emitted `free` calls are applied to a value loaded from the
given slot register: the deallocations of the binding held in that slot. -/
def freeCountFromSlot (lines : List String) (slot : String) : Nat :=
  (freeTargets lines).countP
    (fun r => defRhs lines r == Option.some ("load i8*, i8** " ++ slot))

/-! ## Claim-side purity specification (C6)

A second definition of purity following the (amended) claim's words: a
function is pure iff no parameter is a mutable reference, the body nowhere
contains an assignment, array-assignment, call to a known impure builtin, or
a `+` with a string-literal operand, and — when some parameter is a string —
the body has no `+` in the linearly traversed positions (statements, let
initializers, if branches, returns, call arguments). -/

mutual
/-- Claim-side: the body contains (anywhere in the tree) an assignment, an
array assignment, a call to a known impure builtin, or a `+` with a
string-literal operand. -/
def containsBad : AstNode → Bool
  | .Assignment _ _ => true
  | .ArrayAssignment _ _ _ => true
  | .Call name args => CodeGenerator.impureBuiltin name || containsBadList args
  | .BinaryOp op l r =>
      (op == .Add && (isStringLitNode l || isStringLitNode r)) ||
        containsBad l || containsBad r
  | .Program nodes => containsBadList nodes
  | .Block nodes => containsBadList nodes
  | .FunctionDef _ _ body _ _ => containsBad body
  | .LetBinding _ value _ => containsBad value
  | .If c t e => containsBad c || containsBad t || containsBadOpt e
  | .While c b => containsBad c || containsBad b
  | .For _ it b => containsBad it || containsBad b
  | .Return v => containsBadOpt v
  | .UnaryOp _ e => containsBad e
  | .ExpressionStatement e => containsBad e
  | .Match v arms => containsBad v || containsBadArms arms
  | .ArrayLit es => containsBadList es
  | .StructInit _ fs => containsBadFields fs
  | .Index a i => containsBad a || containsBad i
  | .Reference e => containsBad e
  | .EnumValue _ _ (.some e) => containsBad e
  | .MethodCall obj _ args => containsBad obj || containsBadList args
  | .MemberAccess obj _ => containsBad obj
  | _ => false

/-- List helper for `containsBad`. -/
def containsBadList : AstList → Bool
  | .nil => false
  | .cons a rest => containsBad a || containsBadList rest

/-- Option helper for `containsBad`. -/
def containsBadOpt : AstOpt → Bool
  | .none => false
  | .some e => containsBad e

/-- Arm helper for `containsBad`. -/
def containsBadArms : ArmList → Bool
  | .nil => false
  | .cons _ body rest => containsBad body || containsBadArms rest

/-- Field helper for `containsBad`. -/
def containsBadFields : FieldList → Bool
  | .nil => false
  | .cons _ v rest => containsBad v || containsBadFields rest
end

mutual
/-- Claim-side: a `+` occurs in a linearly traversed position — at the top of
a statement list, a let initializer, an if condition or branch, a returned
expression, a call argument, under binary operators, or an expression
statement (but not inside loops, match arms, method calls, indexing,
references, or struct/array literals). -/
def specAddReachable : AstNode → Bool
  | .BinaryOp .Add _ _ => true
  | .BinaryOp _ l r => specAddReachable l || specAddReachable r
  | .Block nodes => specAddReachableList nodes
  | .Program nodes => specAddReachableList nodes
  | .Return (.some v) => specAddReachable v
  | .LetBinding _ value _ => specAddReachable value
  | .If c t e => specAddReachable c || specAddReachable t || specAddReachableOpt e
  | .Call _ args => specAddReachableList args
  | .ExpressionStatement e => specAddReachable e
  | _ => false

/-- List helper for `specAddReachable`. -/
def specAddReachableList : AstList → Bool
  | .nil => false
  | .cons a rest => specAddReachable a || specAddReachableList rest

/-- Option helper for `specAddReachable`. -/
def specAddReachableOpt : AstOpt → Bool
  | .none => false
  | .some e => specAddReachable e
end

/-- Claim-side purity predicate (the amended C6 characterization). -/
def specPure (params : List Parameter) (body : AstNode) : Bool :=
  let noMutRef := !params.any (fun p =>
    let r := stripRefMarker p.param_type
    (p.is_reference || r.1) && (p.is_mutable || r.2.1))
  let hasStringParam := params.any (fun p => (stripRefMarker p.param_type).2.2 == "string")
  noMutRef && !(hasStringParam && specAddReachable body) && !containsBad body

/-! ## Claim C6: purity inference, equivalences -/


mutual
theorem bodyIsPure_eq : ∀ n : AstNode, CodeGenerator.body_is_pure n = !containsBad n
  | .Program nodes => by
      simp [CodeGenerator.body_is_pure, containsBad, bodyIsPureList_eq nodes]
  | .FunctionDef _ _ body _ _ => by
      simp [CodeGenerator.body_is_pure, containsBad, bodyIsPure_eq body]
  | .StructDef _ _ => by simp [CodeGenerator.body_is_pure, containsBad]
  | .EnumDef _ _ => by simp [CodeGenerator.body_is_pure, containsBad]
  | .LetBinding _ value _ => by
      simp [CodeGenerator.body_is_pure, containsBad, bodyIsPure_eq value]
  | .Assignment _ _ => by simp [CodeGenerator.body_is_pure, containsBad]
  | .ArrayAssignment _ _ _ => by simp [CodeGenerator.body_is_pure, containsBad]
  | .If c t e => by
      simp [CodeGenerator.body_is_pure, containsBad, bodyIsPure_eq c, bodyIsPure_eq t,
        bodyIsPureOpt_eq e, Bool.and_assoc]
  | .While c b => by
      simp [CodeGenerator.body_is_pure, containsBad, bodyIsPure_eq c, bodyIsPure_eq b]
  | .For _ it b => by
      simp [CodeGenerator.body_is_pure, containsBad, bodyIsPure_eq it, bodyIsPure_eq b]
  | .Match v arms => by
      simp [CodeGenerator.body_is_pure, containsBad, bodyIsPure_eq v, bodyIsPureArms_eq arms]
  | .Block nodes => by
      simp [CodeGenerator.body_is_pure, containsBad, bodyIsPureList_eq nodes]
  | .Return v => by
      simp [CodeGenerator.body_is_pure, containsBad, bodyIsPureOpt_eq v]
  | .Break => by simp [CodeGenerator.body_is_pure, containsBad]
  | .Continue => by simp [CodeGenerator.body_is_pure, containsBad]
  | .BinaryOp op l r => by
      have hl := bodyIsPure_eq l
      have hr := bodyIsPure_eq r
      simp only [CodeGenerator.body_is_pure, containsBad, hl, hr]
      cases h : (op == BinOp.Add && (isStringLitNode l || isStringLitNode r)) <;>
        simp [h, Bool.and_assoc]
  | .UnaryOp _ e => by
      simp [CodeGenerator.body_is_pure, containsBad, bodyIsPure_eq e]
  | .Call name args => by
      simp [CodeGenerator.body_is_pure, containsBad, bodyIsPureList_eq args]
  | .MethodCall obj _ args => by
      simp [CodeGenerator.body_is_pure, containsBad, bodyIsPure_eq obj, bodyIsPureList_eq args]
  | .MemberAccess obj _ => by
      simp [CodeGenerator.body_is_pure, containsBad, bodyIsPure_eq obj]
  | .Identifier _ => by simp [CodeGenerator.body_is_pure, containsBad]
  | .Number _ => by simp [CodeGenerator.body_is_pure, containsBad]
  | .Boolean _ => by simp [CodeGenerator.body_is_pure, containsBad]
  | .Character _ => by simp [CodeGenerator.body_is_pure, containsBad]
  | .StringLit _ => by simp [CodeGenerator.body_is_pure, containsBad]
  | .ArrayLit es => by
      simp [CodeGenerator.body_is_pure, containsBad, bodyIsPureList_eq es]
  | .Index a i => by
      simp [CodeGenerator.body_is_pure, containsBad, bodyIsPure_eq a, bodyIsPure_eq i]
  | .StructInit _ fs => by
      simp [CodeGenerator.body_is_pure, containsBad, bodyIsPureFields_eq fs]
  | .EnumValue _ _ (.some e) => by
      simp [CodeGenerator.body_is_pure, containsBad, bodyIsPure_eq e]
  | .EnumValue _ _ .none => by simp [CodeGenerator.body_is_pure, containsBad]
  | .Reference e => by
      simp [CodeGenerator.body_is_pure, containsBad, bodyIsPure_eq e]
  | .ExpressionStatement e => by
      simp [CodeGenerator.body_is_pure, containsBad, bodyIsPure_eq e]
  | .Import _ => by simp [CodeGenerator.body_is_pure, containsBad]
  | .ArrayType _ => by simp [CodeGenerator.body_is_pure, containsBad]

theorem bodyIsPureList_eq : ∀ l : AstList, CodeGenerator.bodyIsPureList l = !containsBadList l
  | .nil => by simp [CodeGenerator.bodyIsPureList, containsBadList]
  | .cons a rest => by
      simp [CodeGenerator.bodyIsPureList, containsBadList, bodyIsPure_eq a,
        bodyIsPureList_eq rest]

theorem bodyIsPureOpt_eq : ∀ v : AstOpt, CodeGenerator.bodyIsPureOpt v = !containsBadOpt v
  | .none => by simp [CodeGenerator.bodyIsPureOpt, containsBadOpt]
  | .some e => by simp [CodeGenerator.bodyIsPureOpt, containsBadOpt, bodyIsPure_eq e]

theorem bodyIsPureArms_eq : ∀ a : ArmList, CodeGenerator.bodyIsPureArms a = !containsBadArms a
  | .nil => by simp [CodeGenerator.bodyIsPureArms, containsBadArms]
  | .cons _ body rest => by
      simp [CodeGenerator.bodyIsPureArms, containsBadArms, bodyIsPure_eq body,
        bodyIsPureArms_eq rest]

theorem bodyIsPureFields_eq : ∀ f : FieldList, CodeGenerator.bodyIsPureFields f = !containsBadFields f
  | .nil => by simp [CodeGenerator.bodyIsPureFields, containsBadFields]
  | .cons _ v rest => by
      simp [CodeGenerator.bodyIsPureFields, containsBadFields, bodyIsPure_eq v,
        bodyIsPureFields_eq rest]
end



mutual
theorem containsAdd_eq : ∀ n : AstNode, CodeGenerator.body_contains_add n = specAddReachable n
  | .BinaryOp op l r => by
      cases op <;>
        simp [CodeGenerator.body_contains_add, specAddReachable, containsAdd_eq l, containsAdd_eq r]
  | .Block nodes => by
      simp [CodeGenerator.body_contains_add, specAddReachable, containsAddList_eq nodes]
  | .Program nodes => by
      simp [CodeGenerator.body_contains_add, specAddReachable, containsAddList_eq nodes]
  | .Return (.some v) => by
      simp [CodeGenerator.body_contains_add, specAddReachable, containsAdd_eq v]
  | .Return .none => by simp [CodeGenerator.body_contains_add, specAddReachable]
  | .LetBinding _ value _ => by
      simp [CodeGenerator.body_contains_add, specAddReachable, containsAdd_eq value]
  | .If c t e => by
      simp [CodeGenerator.body_contains_add, specAddReachable, containsAdd_eq c,
        containsAdd_eq t, containsAddOpt_eq e]
  | .Call _ args => by
      simp [CodeGenerator.body_contains_add, specAddReachable, containsAddList_eq args]
  | .ExpressionStatement e => by
      simp [CodeGenerator.body_contains_add, specAddReachable, containsAdd_eq e]
  | .Import _ => by simp [CodeGenerator.body_contains_add, specAddReachable]
  | .StructDef _ _ => by simp [CodeGenerator.body_contains_add, specAddReachable]
  | .EnumDef _ _ => by simp [CodeGenerator.body_contains_add, specAddReachable]
  | .FunctionDef _ _ _ _ _ => by simp [CodeGenerator.body_contains_add, specAddReachable]
  | .Assignment _ _ => by simp [CodeGenerator.body_contains_add, specAddReachable]
  | .ArrayAssignment _ _ _ => by simp [CodeGenerator.body_contains_add, specAddReachable]
  | .While _ _ => by simp [CodeGenerator.body_contains_add, specAddReachable]
  | .For _ _ _ => by simp [CodeGenerator.body_contains_add, specAddReachable]
  | .Match _ _ => by simp [CodeGenerator.body_contains_add, specAddReachable]
  | .Break => by simp [CodeGenerator.body_contains_add, specAddReachable]
  | .Continue => by simp [CodeGenerator.body_contains_add, specAddReachable]
  | .UnaryOp _ _ => by simp [CodeGenerator.body_contains_add, specAddReachable]
  | .MethodCall _ _ _ => by simp [CodeGenerator.body_contains_add, specAddReachable]
  | .MemberAccess _ _ => by simp [CodeGenerator.body_contains_add, specAddReachable]
  | .Identifier _ => by simp [CodeGenerator.body_contains_add, specAddReachable]
  | .Number _ => by simp [CodeGenerator.body_contains_add, specAddReachable]
  | .Boolean _ => by simp [CodeGenerator.body_contains_add, specAddReachable]
  | .Character _ => by simp [CodeGenerator.body_contains_add, specAddReachable]
  | .StringLit _ => by simp [CodeGenerator.body_contains_add, specAddReachable]
  | .ArrayLit _ => by simp [CodeGenerator.body_contains_add, specAddReachable]
  | .Index _ _ => by simp [CodeGenerator.body_contains_add, specAddReachable]
  | .StructInit _ _ => by simp [CodeGenerator.body_contains_add, specAddReachable]
  | .EnumValue _ _ _ => by simp [CodeGenerator.body_contains_add, specAddReachable]
  | .Reference _ => by simp [CodeGenerator.body_contains_add, specAddReachable]
  | .ArrayType _ => by simp [CodeGenerator.body_contains_add, specAddReachable]

theorem containsAddList_eq : ∀ l : AstList,
    CodeGenerator.bodyContainsAddList l = specAddReachableList l
  | .nil => by simp [CodeGenerator.bodyContainsAddList, specAddReachableList]
  | .cons a rest => by
      simp [CodeGenerator.bodyContainsAddList, specAddReachableList, containsAdd_eq a,
        containsAddList_eq rest]

theorem containsAddOpt_eq : ∀ v : AstOpt,
    CodeGenerator.bodyContainsAddOpt v = specAddReachableOpt v
  | .none => by simp [CodeGenerator.bodyContainsAddOpt, specAddReachableOpt]
  | .some e => by simp [CodeGenerator.bodyContainsAddOpt, specAddReachableOpt, containsAdd_eq e]
end

/-- Claim C6 (amended): `CodeGenerator::infer_purity` classifies a function
pure exactly when no parameter is passed by mutable reference, the body
nowhere contains an assignment, array assignment, call to a known impure
builtin, or a `+` with a string-literal operand, and — only when some
parameter has string type — the body performs no `+` in the linearly
traversed positions.  In particular a function whose body concatenates
let-bound strings without a string parameter is still classified pure,
contrary to the original claim. -/
theorem C6_amended (params : List Parameter) (body : AstNode) :
    CodeGenerator.infer_purity params body = specPure params body := by
  unfold CodeGenerator.infer_purity specPure
  simp only [containsAdd_eq, bodyIsPure_eq]
  cases h1 : params.any (fun p =>
      let r := stripRefMarker p.param_type
      (p.is_reference || r.1) && (p.is_mutable || r.2.1)) <;>
    cases h2 : params.any (fun p => (stripRefMarker p.param_type).2.2 == "string") <;>
      simp [h1, h2]


/-! ## Claim C8: the integer-to-decimal routines -/


theorem decDigits_lt (m : Nat) (h : m < 10) : decDigitsAscii m = [m + 48] := by
  rw [decDigitsAscii]
  simp [h]

theorem decDigits_ge (m : Nat) (h : 10 ≤ m) :
    decDigitsAscii m = decDigitsAscii (m / 10) ++ [m % 10 + 48] := by
  rw [decDigitsAscii]
  simp [Nat.not_lt.mpr h]

theorem decDigits_len_pos (m : Nat) : 1 ≤ (decDigitsAscii m).length := by
  by_cases h : m < 10
  · simp [decDigits_lt m h]
  · rw [decDigits_ge m (Nat.not_lt.mp h)]
    simp

theorem decDigits_ge48 (m : Nat) : ∀ x ∈ decDigitsAscii m, 48 ≤ x := by
  induction m using Nat.strong_induction_on with
  | _ m ih =>
    by_cases h : m < 10
    · simp [decDigits_lt m h]
    · rw [decDigits_ge m (Nat.not_lt.mp h)]
      intro x hx
      rcases List.mem_append.mp hx with h1 | h2
      · exact ih (m / 10) (Nat.div_lt_self (by omega) (by omega)) x h1
      · simp at h2
        omega

theorem decDigits_length_le (k : Nat) : ∀ m : Nat, m < 10 ^ k →
    (decDigitsAscii m).length ≤ k + 1 := by
  induction k with
  | zero =>
    intro m hm
    interval_cases m
    simp [decDigits_lt 0 (by omega)]
  | succ k ih =>
    intro m hm
    by_cases h : m < 10
    · simp [decDigits_lt m h]
    · rw [decDigits_ge m (Nat.not_lt.mp h)]
      have : m / 10 < 10 ^ k := by
        rw [Nat.div_lt_iff_lt_mul (by omega : 0 < 10)]
        calc m < 10 ^ (k + 1) := hm
          _ = 10 ^ k * 10 := by rw [Nat.pow_succ]
      have := ih (m / 10) this
      simp only [List.length_append, List.length_cons, List.length_nil]
      omega



theorem digitLoop_spec : ∀ m : Nat, 1 ≤ m →
    ∀ fuel : Nat, (decDigitsAscii m).length ≤ fuel →
    ∀ (buf : Int → Nat) (pos : Int),
    ∃ buf2 : Int → Nat,
      digitLoop fuel buf (m : Int) pos =
        Option.some (buf2, pos + 1 - (decDigitsAscii m).length, pos - (decDigitsAscii m).length) ∧
      (∀ j : Int, (j < pos + 1 - (decDigitsAscii m).length ∨ pos < j) → buf2 j = buf j) ∧
      (∀ i : Nat, i < (decDigitsAscii m).length →
        buf2 (pos + 1 - (decDigitsAscii m).length + i) = (decDigitsAscii m).getD i 0) := by
  intro m
  induction m using Nat.strong_induction_on with
  | _ m ih =>
    intro hm fuel hf buf pos
    obtain ⟨f, rfl⟩ : ∃ f, fuel = f + 1 :=
      ⟨fuel - 1, by have := decDigits_len_pos m; omega⟩
    have htmod : Int.tmod (m : Int) 10 = ((m % 10 : Nat) : Int) := rfl
    have htdiv : Int.tdiv (m : Int) 10 = ((m / 10 : Nat) : Int) := (Int.ofNat_tdiv m 10).symm
    have hascii : ((((m % 10 : Nat) : Int)) + 48).toNat = m % 10 + 48 := by
      omega
    by_cases h : m < 10
    · -- single digit: one iteration, quotient zero
      have hq : m / 10 = 0 := Nat.div_eq_of_lt h
      have hmod : m % 10 = m := Nat.mod_eq_of_lt h
      have hlen : decDigitsAscii m = [m + 48] := decDigits_lt m h
      refine ⟨updateBuf buf pos (m + 48), ?_, ?_, ?_⟩
      · show digitLoop (f + 1) buf (m : Int) pos = _
        unfold digitLoop
        have h48 : ((Int.tmod (m : Int) 10) + 48).toNat = m + 48 := by
          rw [htmod]
          omega
        have hq0 : Int.tdiv (m : Int) 10 = 0 := by
          rw [htdiv, hq]
          rfl
        simp only [h48, hq0, if_pos]
        simp [hlen]
      · intro j hj
        have : j ≠ pos := by
          simp [hlen] at hj
          omega
        simp [updateBuf, this]
      · intro i hi
        simp [hlen] at hi ⊢
        subst hi
        simp [updateBuf]
    · -- multi digit: write m % 10, recurse on m / 10 at pos - 1
      have hge : 10 ≤ m := Nat.not_lt.mp h
      have hdiv1 : 1 ≤ m / 10 := (Nat.one_le_div_iff (by omega)).mpr hge
      have hlt : m / 10 < m := Nat.div_lt_self (by omega) (by omega)
      have hlen : decDigitsAscii m = decDigitsAscii (m / 10) ++ [m % 10 + 48] :=
        decDigits_ge m hge
      have hL : (decDigitsAscii m).length = (decDigitsAscii (m / 10)).length + 1 := by
        simp [hlen]
      have hf2 : (decDigitsAscii (m / 10)).length ≤ f := by omega
      obtain ⟨buf2, heq, hout, hcontent⟩ :=
        ih (m / 10) hlt hdiv1 f hf2 (updateBuf buf pos (m % 10 + 48)) (pos - 1)
      refine ⟨buf2, ?_, ?_, ?_⟩
      · show digitLoop (f + 1) buf (m : Int) pos = _
        unfold digitLoop
        have hqne : ((m / 10 : Nat) : Int) ≠ 0 := by
          omega
        simp only [htmod, htdiv, hascii]
        rw [if_neg hqne]
        rw [heq]
        congr 2
        all_goals (simp [hL]; omega)
      · intro j hj
        have hj2 : j < pos - 1 + 1 - (decDigitsAscii (m / 10)).length ∨ pos - 1 < j := by
          rcases hj with hj | hj
          · left
            rw [hL] at hj
            push_cast at hj ⊢
            omega
          · right
            omega
        by_cases hjp : j = pos
        · rcases hj with hj | hj
          · exfalso
            rw [hL] at hj
            have := decDigits_len_pos (m / 10)
            push_cast at hj
            omega
          · omega
        · rw [hout j hj2]
          simp [updateBuf, hjp]
      · intro i hi
        rw [hL] at hi
        by_cases hilast : i = (decDigitsAscii (m / 10)).length
        · -- the digit written before recursing: position pos, value m % 10 + 48
          subst hilast
          have hppos : pos + 1 - ((decDigitsAscii m).length : Int) +
              ((decDigitsAscii (m / 10)).length : Nat) = pos := by
            rw [hL]
            push_cast
            omega
          rw [hppos]
          have : buf2 pos = updateBuf buf pos (m % 10 + 48) pos := by
            apply hout
            right
            omega
          rw [this]
          simp [updateBuf, hlen, List.getD_append_right]
        · have hi' : i < (decDigitsAscii (m / 10)).length := by omega
          have hpos2 : pos + 1 - ((decDigitsAscii m).length : Int) + (i : Nat) =
              pos - 1 + 1 - ((decDigitsAscii (m / 10)).length : Int) + (i : Nat) := by
            rw [hL]
            push_cast
            omega
          rw [hpos2, hcontent i hi']
          rw [hlen]
          rw [List.getD_append _ _ _ _ hi']



theorem readCStr_spec : ∀ (digits : List Nat) (buf : Int → Nat) (p : Int) (fuel : Nat),
    digits.length < fuel →
    (∀ i : Nat, i < digits.length → buf (p + i) = digits.getD i 0) →
    (∀ x ∈ digits, x ≠ 0) →
    buf (p + digits.length) = 0 →
    readCStr buf p fuel = digits := by
  intro digits
  induction digits with
  | nil =>
    intro buf p fuel hf _ _ h0
    obtain ⟨f, rfl⟩ : ∃ f, fuel = f + 1 := ⟨fuel - 1, by omega⟩
    unfold readCStr
    simp only [List.length_nil, Nat.cast_zero, add_zero] at h0
    simp [h0]
  | cons d rest ih =>
    intro buf p fuel hf hc hnz h0
    obtain ⟨f, rfl⟩ : ∃ f, fuel = f + 1 := ⟨fuel - 1, by omega⟩
    unfold readCStr
    have hd : buf p = d := by
      have := hc 0 (by simp)
      simpa using this
    have hdnz : d ≠ 0 := hnz d (by simp)
    rw [hd, if_neg hdnz]
    congr 1
    apply ih
    · simp at hf
      omega
    · intro i hi
      have := hc (i + 1) (by simp; omega)
      have harith : p + ((i : Int) + 1) = p + 1 + i := by ring
      push_cast at this
      rw [harith] at this
      simpa using this
    · intro x hx
      exact hnz x (List.mem_cons_of_mem d hx)
    · have := h0
      have harith : p + (((d :: rest).length : Nat) : Int) = p + 1 + rest.length := by
        simp only [List.length_cons]
        push_cast
        ring
      rw [harith] at this
      exact this

theorem wrap64_small (x : Int) (h1 : 0 ≤ x) (h2 : x < 2 ^ 63) : wrap64 x = x := by
  unfold wrap64
  rw [Int.emod_eq_of_lt (by omega) (by omega)]
  omega

theorem digits_le20 (m : Nat) (hm : m < 2 ^ 63) : (decDigitsAscii m).length ≤ 20 := by
  have h1 : m < 10 ^ 19 := by
    have : (2 : Nat) ^ 63 = 9223372036854775808 := by norm_num
    have h10 : (10 : Nat) ^ 19 = 10000000000000000000 := by norm_num
    omega
  have := decDigits_length_le 19 m h1
  omega

theorem int_to_string_stack_spec (n : Int) (hlo : -(2 ^ 63) < n) (hhi : n < 2 ^ 63)
    (buf : Int → Nat) :
    ∃ dst p, int_to_string_stack n buf = Option.some (dst, p) ∧
      cstr dst p = decimalAscii n ∧ dst 31 = 0 ∧
      p + ((decimalAscii n).length : Int) = 31 := by
  by_cases h0 : n = 0
  · subst h0
    refine ⟨updateBuf (updateBuf buf 30 48) 31 0, 30, ?_, ?_, ?_, ?_⟩
    · simp [int_to_string_stack]
    · have hdec : decimalAscii 0 = [48] := by
        simp [decimalAscii, decDigits_lt 0 (by omega)]
      rw [hdec]
      apply readCStr_spec
      · simp
      · intro i hi
        simp at hi
        subst hi
        simp [updateBuf]
      · simp
      · simp [updateBuf]
    · simp [updateBuf]
    · have hdec : decimalAscii 0 = [48] := by
        simp [decimalAscii, decDigits_lt 0 (by omega)]
      rw [hdec]
      norm_num
  · by_cases hneg : n < 0
    · -- negative, not INT64_MIN
      set x : Int := -n with hx
      have hx1 : 0 < x := by omega
      have hx2 : x < 2 ^ 63 := by omega
      set m : Nat := x.toNat with hmdef
      have hm1 : 1 ≤ m := by omega
      have hcast : (m : Int) = x := Int.toNat_of_nonneg (by omega)
      have hm2 : m < 2 ^ 63 := by omega
      have hL20 : (decDigitsAscii m).length ≤ 20 := digits_le20 m hm2
      obtain ⟨buf2, heq, hout, hcontent⟩ :=
        digitLoop_spec m hm1 64 (by omega) (updateBuf buf 31 0) 30
      rw [hcast] at heq
      have hwrap : wrap64 (0 - n) = x := by
        rw [show (0 - n) = x by omega]
        exact wrap64_small x (by omega) hx2
      set L : Nat := (decDigitsAscii m).length with hLdef
      have hLpos : 1 ≤ L := decDigits_len_pos m
      refine ⟨updateBuf buf2 (30 - (L : Int)) 45, 30 - (L : Int), ?_, ?_, ?_, ?_⟩
      · simp only [int_to_string_stack, if_neg h0, if_pos hneg, hwrap]
        rw [heq]
      · have hdec : decimalAscii n = 45 :: decDigitsAscii m := by
          simp only [decimalAscii, if_pos hneg]
        rw [hdec]
        apply readCStr_spec
        · simp only [List.length_cons]
          rw [← hLdef]
          omega
        · intro i hi
          simp only [List.length_cons] at hi
          match i with
          | 0 =>
            simp [updateBuf]
          | Nat.succ j =>
            have hj : j < L := by omega
            have hne : 30 - (L : Int) + (j + 1 : Nat) ≠ 30 - (L : Int) := by
              push_cast
              omega
            rw [show ((Nat.succ j : Nat) : Int) = ((j : Int) + 1) by push_cast; ring]
            rw [show (30 - (L : Int) + ((j : Int) + 1)) = (30 + 1 - (L : Int) + (j : Int)) by ring]
            rw [updateBuf]
            rw [if_neg (by push_cast; omega)]
            have := hcontent j hj
            simpa using this
        · intro y hy
          rcases List.mem_cons.mp hy with h | h
          · omega
          · have := decDigits_ge48 m y h
            omega
        · have h31 : 30 - (L : Int) + (((45 :: decDigitsAscii m).length : Nat) : Int) = 31 := by
            simp only [List.length_cons]
            push_cast
            omega
          rw [h31]
          rw [updateBuf]
          rw [if_neg (by omega)]
          rw [hout 31 (by right; omega)]
          simp [updateBuf]
      · rw [updateBuf, if_neg (by omega)]
        rw [hout 31 (by right; omega)]
        simp [updateBuf]
      · have hdec : decimalAscii n = 45 :: decDigitsAscii m := by
          simp only [decimalAscii, if_pos hneg]
        rw [hdec]
        simp only [List.length_cons]
        push_cast
        omega
    · -- positive
      have hpos : 0 < n := by omega
      set m : Nat := n.toNat with hmdef
      have hm1 : 1 ≤ m := by omega
      have hcast : (m : Int) = n := Int.toNat_of_nonneg (by omega)
      have hm2 : m < 2 ^ 63 := by omega
      have hL20 : (decDigitsAscii m).length ≤ 20 := digits_le20 m hm2
      obtain ⟨buf2, heq, hout, hcontent⟩ :=
        digitLoop_spec m hm1 64 (by omega) (updateBuf buf 31 0) 30
      rw [hcast] at heq
      set L : Nat := (decDigitsAscii m).length with hLdef
      have hLpos : 1 ≤ L := decDigits_len_pos m
      refine ⟨buf2, 30 + 1 - (L : Int), ?_, ?_, ?_, ?_⟩
      · simp only [int_to_string_stack, if_neg h0, if_neg hneg]
        rw [heq]
      · have hdec : decimalAscii n = decDigitsAscii m := by
          simp only [decimalAscii, if_neg hneg]
        rw [hdec]
        apply readCStr_spec
        · rw [← hLdef]
          omega
        · intro i hi
          exact hcontent i hi
        · intro y hy
          have := decDigits_ge48 m y hy
          omega
        · rw [show (30 + 1 - (L : Int) + ((decDigitsAscii m).length : Nat)) = 31 by push_cast; omega]
          rw [hout 31 (by right; omega)]
          simp [updateBuf]
      · rw [hout 31 (by right; omega)]
        simp [updateBuf]
      · have hdec : decimalAscii n = decDigitsAscii m := by
          simp only [decimalAscii, if_neg hneg]
        rw [hdec]
        push_cast
        omega



set_option maxRecDepth 8000 in
/-- Claim C8, counterexample: at `INT64_MIN` the absolute value `0 - n`
wraps back to `INT64_MIN` itself, the digit loop runs on a negative value
whose `srem`-remainders are negative, and the bytes written are garbage
(characters below `0`), not the decimal representation. -/
theorem C8_counterexample :
    ((int_to_string_stack (-(2 ^ 63)) (fun _ => 7)).map (fun r => cstr r.1 r.2)) ≠
      Option.some (decimalAscii (-(2 ^ 63))) := by
  have hL : ((int_to_string_stack (-(2 ^ 63)) (fun _ => 7)).map (fun r => cstr r.1 r.2)) =
      Option.some [45, 39, 46, 46, 45, 45, 41, 46, 48, 45, 42, 40, 43, 44, 41, 41, 43, 40, 48, 40] := by
    decide
  rw [hL]
  intro h
  have h2 := Option.some.inj h
  unfold decimalAscii at h2
  rw [if_pos (by norm_num)] at h2
  have h3 := List.tail_eq_of_cons_eq h2
  have h39 : (39 : Nat) ∈ decDigitsAscii (-(-(2 : Int) ^ 63)).toNat := by
    rw [← h3]
    simp
  have := decDigits_ge48 _ 39 h39
  omega

/-! ## Claim C5: decimal names are injective (`Nat.repr`), via a digits inverse -/


theorem digitChar_eq (d : Nat) (h : d < 10) : Nat.digitChar d = Char.ofNat (d + 48) := by
  interval_cases d <;> rfl

theorem toDigitsCore_eq : ∀ n : Nat, ∀ (fuel : Nat) (acc : List Char),
    (decDigitsAscii n).length ≤ fuel →
    Nat.toDigitsCore 10 fuel n acc = (decDigitsAscii n).map Char.ofNat ++ acc := by
  intro n
  induction n using Nat.strong_induction_on with
  | _ n ih =>
    intro fuel acc hf
    obtain ⟨f, rfl⟩ : ∃ f, fuel = f + 1 :=
      ⟨fuel - 1, by have := decDigits_len_pos n; omega⟩
    by_cases h : n < 10
    · have hq : n / 10 = 0 := Nat.div_eq_of_lt h
      have hmod : n % 10 = n := Nat.mod_eq_of_lt h
      simp only [Nat.toDigitsCore, hq, hmod, if_pos]
      rw [decDigits_lt n h]
      simp [digitChar_eq n h]
    · have hge : 10 ≤ n := Nat.not_lt.mp h
      have hq : n / 10 ≠ 0 := by
        have := (Nat.one_le_div_iff (by omega : 0 < 10)).mpr hge
        omega
      have hlt : n / 10 < n := Nat.div_lt_self (by omega) (by omega)
      have hlen : (decDigitsAscii (n / 10)).length ≤ f := by
        rw [decDigits_ge n hge] at hf
        simp at hf
        omega
      simp only [Nat.toDigitsCore, if_neg hq]
      rw [ih (n / 10) hlt f _ hlen]
      rw [decDigits_ge n hge]
      have hm : n % 10 < 10 := Nat.mod_lt n (by omega)
      simp [digitChar_eq (n % 10) hm]

/-- Inverse of `decDigitsAscii`: read the decimal value back. -/
def undigits (l : List Nat) : Nat := l.foldl (fun a d => a * 10 + (d - 48)) 0

theorem undigits_aux (l : List Nat) : ∀ a : Nat,
    l.foldl (fun a d => a * 10 + (d - 48)) a =
      a * 10 ^ l.length + l.foldl (fun a d => a * 10 + (d - 48)) 0 := by
  induction l with
  | nil => intro a; simp
  | cons d rest ih =>
    intro a
    simp only [List.foldl_cons, List.length_cons]
    rw [ih (a * 10 + (d - 48)), ih (0 * 10 + (d - 48))]
    ring

theorem undigits_decDigits (m : Nat) : undigits (decDigitsAscii m) = m := by
  induction m using Nat.strong_induction_on with
  | _ m ih =>
    by_cases h : m < 10
    · rw [decDigits_lt m h]
      simp [undigits]
    · have hge : 10 ≤ m := Nat.not_lt.mp h
      rw [decDigits_ge m hge]
      unfold undigits
      rw [List.foldl_append]
      have := ih (m / 10) (Nat.div_lt_self (by omega) (by omega))
      unfold undigits at this
      rw [this]
      simp only [List.foldl_cons, List.foldl_nil]
      have hm : m % 10 + 48 - 48 = m % 10 := by omega
      rw [hm]
      omega

theorem decDigitsAscii_injective (m n : Nat) (h : decDigitsAscii m = decDigitsAscii n) :
    m = n := by
  have := undigits_decDigits m
  rw [h, undigits_decDigits n] at this
  omega

theorem decDigits_lt_char (m : Nat) : ∀ x ∈ decDigitsAscii m, x < 58 := by
  induction m using Nat.strong_induction_on with
  | _ m ih =>
    by_cases h : m < 10
    · rw [decDigits_lt m h]
      intro x hx
      simp at hx
      omega
    · rw [decDigits_ge m (Nat.not_lt.mp h)]
      intro x hx
      rcases List.mem_append.mp hx with h1 | h2
      · exact ih (m / 10) (Nat.div_lt_self (by omega) (by omega)) x h1
      · simp at h2
        have := Nat.mod_lt m (show 0 < 10 by omega)
        omega

theorem natRepr_injective (m n : Nat) (h : Nat.repr m = Nat.repr n) : m = n := by
  unfold Nat.repr Nat.toDigits at h
  rw [toDigitsCore_eq m (m + 1) []
        (by have := decDigits_length_le m m (Nat.lt_pow_self (by omega) m); omega)] at h
  rw [toDigitsCore_eq n (n + 1) []
        (by have := decDigits_length_le n n (Nat.lt_pow_self (by omega) n); omega)] at h
  simp only [List.append_nil] at h
  have hdata : (decDigitsAscii m).map Char.ofNat = (decDigitsAscii n).map Char.ofNat := by
    have : ((decDigitsAscii m).map Char.ofNat).asString = ((decDigitsAscii n).map Char.ofNat).asString := h
    exact congrArg String.data this
  apply decDigitsAscii_injective
  have hinj : ∀ l : List Nat, (∀ x ∈ l, x < 58) → ∀ l2 : List Nat, (∀ x ∈ l2, x < 58) →
      l.map Char.ofNat = l2.map Char.ofNat → l = l2 := by
    intro l
    induction l with
    | nil =>
      intro _ l2 _ h2
      cases l2 with
      | nil => rfl
      | cons y ys => simp at h2
    | cons x xs ihx =>
      intro hx l2 h2 heq
      cases l2 with
      | nil => simp at heq
      | cons y ys =>
        simp only [List.map_cons, List.cons.injEq] at heq
        have hxv : x < 58 := hx x (by simp)
        have hyv : y < 58 := h2 y (by simp)
        have hround : ∀ z : Nat, z < 58 → (Char.ofNat z).toNat = z := by
          intro z hz
          have hv : z.isValidChar := Or.inl (by omega)
          simp only [Char.ofNat, dif_pos hv, Char.ofNatAux, Char.toNat]
          rfl
        have : x = y := by
          have hc := heq.1
          have hxy : (Char.ofNat x).toNat = (Char.ofNat y).toNat := by rw [hc]
          rwa [hround x hxv, hround y hyv] at hxy
        refine congrArg₂ _ this ?_
        exact ihx (fun z hz => hx z (by simp [hz])) ys (fun z hz => h2 z (by simp [hz])) heq.2
  exact hinj _ (decDigits_lt_char m) _ (decDigits_lt_char n) hdata

/-! ## Iteration orders and concrete programs used by the claim analyses

The `HashMap` iteration orders are modelled as reordering functions; the
identity and reversal orders below instantiate them.  The small programs are
the inputs on which the claims are decided; each is written directly in the
AST of the parser. -/

open CodeGenerator

/-- The identity iteration order for the per-function variable map. -/
def idv : VarOrder := fun l => l

/-- The identity iteration order for the struct-type table. -/
def ids : StructOrder := fun l => l

/-- The reversed iteration order for the per-function variable map. -/
def revv : VarOrder := fun l => l.reverse

/-- The reversed iteration order for the struct-type table. -/
def revs : StructOrder := fun l => l.reverse

/-- Body of `fn f() -> string { let s = "a" + "b"; let t = s; return t }`:
the heap string `s` escapes through the alias `t`. -/
def c1Body : AstNode := .Block (AstList.ofL [
  .LetBinding "s" (.BinaryOp .Add (.StringLit "a") (.StringLit "b")) false,
  .LetBinding "t" (.Identifier "s") false,
  .Return (.some (.Identifier "t"))])

/-- The IR lines emitted for the function of `c1Body`. -/
def c1Out : List String :=
  (gen_node idv {} (.FunctionDef "f" [] c1Body (Option.some "string") false)).1.output

/-- Body of `fn main() { let s = "a" + "b"; consume(s); let t = s + "c" }`:
`s` is freed by the second concatenation and again at block exit. -/
def c2Body : AstNode := .Block (AstList.ofL [
  .LetBinding "s" (.BinaryOp .Add (.StringLit "a") (.StringLit "b")) false,
  .ExpressionStatement (.Call "consume" (AstList.ofL [.Identifier "s"])),
  .LetBinding "t" (.BinaryOp .Add (.Identifier "s") (.StringLit "c")) false])

/-- The IR lines emitted for the function of `c2Body`. -/
def c2Out : List String :=
  (gen_node idv {} (.FunctionDef "main" [] c2Body Option.none false)).1.output

/-- Body of `fn main() { let s = "x"; let t = s; consume(t) }`: the alias
`t` of the literal binding `s` loses the string-literal flag. -/
def c3Body : AstNode := .Block (AstList.ofL [
  .LetBinding "s" (.StringLit "x") false,
  .LetBinding "t" (.Identifier "s") false,
  .ExpressionStatement (.Call "consume" (AstList.ofL [.Identifier "t"]))])

/-- The IR lines emitted for the function of `c3Body`. -/
def c3Out : List String :=
  (gen_node idv {} (.FunctionDef "main" [] c3Body Option.none false)).1.output

/-- Body of `fn main() { for i in 0..3 { break } }`: the body terminates its
block with a branch, yet the loop lowering emits the induction-variable
increment right after it. -/
def c4Body : AstNode := .Block (AstList.ofL [
  .For "i" (.BinaryOp .DotDot (.Number 0) (.Number 3)) (.Block (AstList.ofL [.Break]))])

/-- The IR lines emitted for the function of `c4Body`. -/
def c4Out : List String :=
  (gen_node idv {} (.FunctionDef "main" [] c4Body Option.none false)).1.output

/-- Body of `fn main() { x = 5 }`: an assignment to an unbound name. -/
def c9Body : AstNode := .Block (AstList.ofL [
  .ExpressionStatement (.Assignment "x" (.Number 5))])

/-- Body of `fn f() { let a = "x"; let b = a + a }`: a string concatenation
over a let binding, in a function with no parameters. -/
def c6Body : AstNode := .Block (AstList.ofL [
  .LetBinding "a" (.StringLit "x") false,
  .LetBinding "b" (.BinaryOp .Add (.Identifier "a") (.Identifier "a")) false])

/-- The two-function program putting `c6Body` behind a reachable `f`. -/
def c6Prog : AstNode := .Program (AstList.ofL [
  .FunctionDef "f" [] c6Body Option.none false,
  .FunctionDef "main" [] (.Block (AstList.ofL [
    .ExpressionStatement (.Call "f" .nil)])) Option.none false])

/-- A program with two struct definitions: the struct-declaration loop
iterates the struct-type `HashMap`, so its output order follows the map's
iteration order. -/
def twoStructs : AstNode := .Program (AstList.ofL [
  .StructDef "A" [⟨"x", "int"⟩],
  .StructDef "B" [⟨"y", "int"⟩],
  .FunctionDef "main" [] (.Block .nil) Option.none false])

/-- The empty `main`: `fn main() {}`. -/
def emptyMainDef : AstNode := .FunctionDef "main" [] (.Block .nil) Option.none false

/-- The one-function program around `emptyMainDef`. -/
def emptyProg : AstNode := .Program (.cons emptyMainDef .nil)

/-! ## Claims C1 to C4: the lowering bugs, decided on the emitted IR -/

set_option maxRecDepth 200000 in
/-- Claim C1 (code bug): in `c1Body` the value of the heap binding `s`
escapes through the alias `t` (`let t = s; return t`), yet
`EscapeAnalysis::analyze` marks only the directly returned name `t`, so `s`
is classified non-escaping and stack-promoted — and the function returns a
pointer derived from a stack `alloca`. -/
theorem C1_bug :
    EscapeAnalysis.analyze [] c1Body = ["t"] ∧
    (EscapeAnalysis.analyze [] c1Body).contains "s" = false ∧
    (nonEscapingOfBody (EscapeAnalysis.analyze [] c1Body) c1Body).contains "s" = true ∧
    retOperands c1Out = ["%13"] ∧
    derivesFromStackAlloca c1Out 8 "%13" = true := by decide

set_option maxRecDepth 200000 in
/-- Claim C2 (code bug): in `c2Out` the binding `s` (slot `%10`, holding the
pointer `%6`) is freed twice on the single non-terminating exit of its
block — once by the concatenation `s + "c"` and once by the block-exit
cleanup, which never de-registers concat-freed bindings. -/
theorem C2_bug :
    freeTargets c2Out = ["%27", "%29"] ∧
    defRhs c2Out "%27" = Option.some "load i8*, i8** %10" ∧
    defRhs c2Out "%29" = Option.some "load i8*, i8** %10" ∧
    storesInto c2Out "%10" = ["%6"] ∧
    freeCountFromSlot c2Out "%10" = 2 := by decide

set_option maxRecDepth 200000 in
/-- Claim C3 (code bug): in `c3Out` the one emitted `free` is applied to a
pointer derived from the global string constant `@.str.0` — the alias
`let t = s` of a literal binding is not flagged as a string literal, so the
block-exit cleanup enrolls and frees it. -/
theorem C3_bug :
    freeTargets c3Out = ["%10"] ∧
    derivesFromLit c3Out 8 "%10" = true := by decide

set_option maxRecDepth 200000 in
/-- Claim C4 (code bug): the function lowered from `c4Body` has a basic
block with instructions after its terminator: the `for` lowering emits the
induction-variable increment and back-branch after the body even though the
body ended with `break`, and the `br` emitted by `break` is followed by
unlabelled instructions. -/
theorem C4_bug : blocksWellFormed c4Out = false := by decide

/-! ## Claim C5: string literals are not interned -/

set_option maxRecDepth 200000 in
/-- Claim C5, counterexample: lowering the literal `"hi"` twice registers
two distinct globals `@.str.0` and `@.str.1` with identical bodies and
yields two distinct result registers — identical literal bodies do not
share one constant. -/
theorem C5_counterexample :
    (gen_node idv (gen_node idv ({} : Gen) (.StringLit "hi")).1 (.StringLit "hi")).1.string_literals =
      [(".str.0", "hi"), (".str.1", "hi")] ∧
    (gen_node idv ({} : Gen) (.StringLit "hi")).2 ≠
      (gen_node idv (gen_node idv ({} : Gen) (.StringLit "hi")).1 (.StringLit "hi")).2 := by decide

/-- Claim C5 (amended): `new_string_literal` mints a fresh `.str.N` name on
every call, with no lookup of an existing equal body; successive names are
always distinct (decimal representations of distinct counters differ), so
every literal occurrence gets its own private global. -/
theorem C5_amended (st : Gen) (s1 s2 : String) :
    (new_string_literal st s1).2 ≠ (new_string_literal (new_string_literal st s1).1 s2).2 := by
  simp only [new_string_literal]
  intro h
  have hdata := congrArg String.data h
  simp only [String.data_append] at hdata
  have h2 := List.append_cancel_left hdata
  have h3 : Nat.repr st.string_counter = Nat.repr (st.string_counter + 1) := String.ext h2
  have h4 := natRepr_injective _ _ h3
  omega

/-! ## Claim C6: the purity counterexample -/

set_option maxRecDepth 400000 in
/-- Claim C6, counterexample: `c6Body` concatenates strings (`b = a + a`)
in a function with no parameters, yet `infer_purity` classifies it pure and
the generated module carries the `willreturn readonly` attributes on
`@brn_f` — the body-wide string-`+` exclusion of the claim is conditioned
on a string parameter in the code. -/
theorem C6_counterexample :
    infer_purity [] c6Body = true ∧
    body_contains_add c6Body = true ∧
    (generate ids idv c6Prog).output.contains
      "\ndefine void @brn_f() nounwind readonly willreturn \x7b" = true := by decide

/-! ## Claim C7: output depends on the hash-map iteration orders -/

set_option maxRecDepth 400000 in
/-- Claim C7, counterexample: on `twoStructs` the identity and reversed
iteration orders of the struct-type `HashMap` produce different bytes — the
`%A`/`%B` type declarations appear in map order, so two runs of `generate`
on the same AST need not agree. -/
theorem C7_counterexample :
    build_output (generate ids idv twoStructs) ≠ build_output (generate revs idv twoStructs) := by
  decide

/-- Unfolding of `gen_node` on the empty `main` definition: everything
independent of the iteration order is pre-reduced (definitionally), leaving
the single variable-map iteration `o []` explicit. -/
theorem gen_node_mainEmpty_eq (o : VarOrder) (st : Gen) :
    gen_node o st emptyMainDef =
      (let st1 : Gen := { st with
         current_function_vars := [], temp_counter := 0, label_counter := 0,
         non_escaping := [],
         function_signatures := assocInsert st.function_signatures "main" "i32",
         current_function_name := "main", current_function_return_type := "i32" }
       let stA := emit (emit st1 "\ndefine i32 @main() nounwind \x7b") "entry:"
       let stB : Gen := { stA with block_terminated := false }
       let frees := ((o ([] : List (String × VarMetadata))).filter
           (fun p => p.2.is_heap && !p.2.is_string_literal &&
             !assocContains ([] : List (String × VarMetadata)) p.1)).map
           (fun p => (p.2.llvm_name, p.2.var_type))
       let stC := frees.foldl (fun st p => emitFreeFor st p.1 p.2) stB
       let stD := if "main" == "main" && !stC.block_terminated then emit stC "  ret i32 0"
         else if "i32" == "void" && !stC.block_terminated then emit stC "  ret void"
         else stC
       (emit stD "\x7d", "")) := rfl

/-- Unfolding of the top-level lowering loop on the one-element list holding
`emptyMainDef`. -/
theorem genTop_consEmpty_eq (o : VarOrder) (reach : List String) (st : Gen) :
    genTop o reach st (.cons emptyMainDef .nil) =
      (if reach.contains "main" then (gen_node o st emptyMainDef).1 else st) := rfl

set_option maxRecDepth 1000000 in
set_option maxHeartbeats 2000000 in
/-- Claim C7 (amended): two runs of `generate` on equal ASTs agree only up
to the iteration orders of the two `HashMap` sites (struct-type table,
per-function variable map); when every iteration happens over the empty
table — as for `emptyProg`, which declares no structs and no locals — the
output is byte-identical for every pair of admissible orders. -/
theorem C7_amended (oS : StructOrder) (oV : VarOrder)
    (hS : ∀ l, (oS l).Perm l) (hV : ∀ l, (oV l).Perm l) :
    build_output (generate oS oV emptyProg) =
      build_output (generate (fun l => l) (fun l => l) emptyProg) := by
  have hS0 : oS [] = [] := (hS []).eq_nil
  have hV0 : oV [] = [] := (hV []).eq_nil
  have hbsd : ∀ st : Gen, st.struct_types = [] → buildStructDecls oS st = st := by
    intro st h
    simp only [buildStructDecls]
    rw [h, hS0]
    rfl
  have hreach : (collect_reachable (AstList.cons emptyMainDef AstList.nil)).contains "main" = true := by rfl
  simp only [generate, emptyProg]
  rw [show buildStructDecls oS (registerPurity (registerStructs {} (AstList.cons emptyMainDef AstList.nil)) (AstList.cons emptyMainDef AstList.nil)) = registerPurity (registerStructs {} (AstList.cons emptyMainDef AstList.nil)) (AstList.cons emptyMainDef AstList.nil) from hbsd _ rfl]
  simp only [genTop_consEmpty_eq, hreach, eq_self_iff_true, if_true, gen_node_mainEmpty_eq, hV0,
    List.filter_nil, List.map_nil, List.foldl_nil]
  rfl

/-- Witness for `C7_amended`: the reversed orders against the identity
orders on `emptyProg`. -/
theorem C7_amended_witness :
    build_output (generate revs revv emptyProg) =
      build_output (generate (fun l => l) (fun l => l) emptyProg) :=
  C7_amended revs revv (fun l => List.reverse_perm l) (fun l => List.reverse_perm l)

/-! ## Claim C8: the amended correctness statement -/

/-- Claim C8 (amended): for every `i64` input except `INT64_MIN`, both
integer-to-decimal routines write the NUL at buffer offset 31, fill the
digits backwards from offset 30 with a `-` prefix for negatives, and return
an offset whose NUL-terminated byte string is the decimal representation of
the input.  (`INT64_MIN` itself is the counterexample above.) -/
theorem C8_amended (n : Int) (hlo : -(2 ^ 63) < n) (hhi : n < 2 ^ 63)
    (buf heapBuf : Int → Nat) :
    (∃ dst p, int_to_string_stack n buf = Option.some (dst, p) ∧
      cstr dst p = decimalAscii n ∧ dst 31 = 0 ∧
      p + ((decimalAscii n).length : Int) = 31) ∧
    (∃ dst p, int_to_string_impl n heapBuf = Option.some (dst, p) ∧
      cstr dst p = decimalAscii n ∧ dst 31 = 0 ∧
      p + ((decimalAscii n).length : Int) = 31) :=
  ⟨int_to_string_stack_spec n hlo hhi buf, int_to_string_stack_spec n hlo hhi heapBuf⟩

/-- Witness for `C8_amended` at `n = -42` with arbitrary buffer contents. -/
theorem C8_amended_witness :
    (-(2 ^ 63) : Int) < -42 ∧ ((-42 : Int) < 2 ^ 63) ∧
    ((∃ dst p, int_to_string_stack (-42) (fun _ => 7) = Option.some (dst, p) ∧
        cstr dst p = decimalAscii (-42) ∧ dst 31 = 0 ∧
        p + ((decimalAscii (-42)).length : Int) = 31) ∧
     (∃ dst p, int_to_string_impl (-42) (fun _ => 9) = Option.some (dst, p) ∧
        cstr dst p = decimalAscii (-42) ∧ dst 31 = 0 ∧
        p + ((decimalAscii (-42)).length : Int) = 31)) :=
  ⟨by norm_num, by norm_num,
   C8_amended (-42) (by norm_num) (by norm_num) (fun _ => 7) (fun _ => 9)⟩

/-! ## Claim C9: unknown-identifier handling -/

set_option maxRecDepth 200000 in
/-- Claim C9, counterexample: lowering `fn main() { x = 5 }` — an
assignment whose target `x` is unbound — produces no diagnostic at all,
while the module is still emitted. -/
theorem C9_counterexample :
    (gen_node idv {} (.FunctionDef "main" [] c9Body Option.none false)).1.diagnostics = [] ∧
    (gen_node idv {} (.FunctionDef "main" [] c9Body Option.none false)).1.output ≠ [] := by decide

/-- Claim C9 (amended): an unknown identifier used as an expression prints
a diagnostic and yields the placeholder `"0"`; one under a reference
expression prints a diagnostic and yields `"null"` (not zero); an unknown
target of a simple assignment is silently skipped — the value is lowered,
nothing is stored, and no diagnostic is produced.  In every case lowering
continues. -/
theorem C9_amended :
    (∀ (o : VarOrder) (st : Gen) (name : String),
       assocGet st.current_function_vars name = Option.none →
       gen_node o st (.Identifier name) =
         ({ st with diagnostics := st.diagnostics ++
            ["CODEGEN ERROR: Variable \x27" ++ name ++ "\x27 not found in current scope!"] }, "0")) ∧
    (∀ (o : VarOrder) (st : Gen) (name : String),
       assocGet st.current_function_vars name = Option.none →
       gen_node o st (.Reference (.Identifier name)) =
         ({ st with diagnostics := st.diagnostics ++
            ["CODEGEN ERROR: Variable \x27" ++ name ++ "\x27 not found for reference!"] }, "null")) ∧
    (∀ (o : VarOrder) (st : Gen) (name : String) (value : AstNode),
       assocGet (gen_node o st value).1.current_function_vars name = Option.none →
       gen_node o st (.Assignment name value) = gen_node o st value) := by
  refine ⟨?_, ?_, ?_⟩
  · intro o st name h
    conv_lhs => whnf
    rw [h]
  · intro o st name h
    conv_lhs => whnf
    rw [h]
  · intro o st name value h
    rcases hv : gen_node o st value with ⟨st2, reg⟩
    rw [hv] at h
    simp only at h
    conv_lhs => whnf
    rw [hv]
    simp only []
    rw [h]

/-- Witness for `C9_amended`: the three behaviors at the name `x` in a
fresh generator state. -/
theorem C9_amended_witness :
    gen_node idv ({} : Gen) (.Identifier "x") =
      (({ diagnostics := ["CODEGEN ERROR: Variable \x27x\x27 not found in current scope!"] } : Gen), "0") ∧
    gen_node idv ({} : Gen) (.Reference (.Identifier "x")) =
      (({ diagnostics := ["CODEGEN ERROR: Variable \x27x\x27 not found for reference!"] } : Gen), "null") ∧
    gen_node idv ({} : Gen) (.Assignment "x" (.Number 5)) = gen_node idv ({} : Gen) (.Number 5) :=
  ⟨C9_amended.1 idv {} "x" rfl, C9_amended.2.1 idv {} "x" rfl,
   C9_amended.2.2 idv {} "x" (.Number 5) rfl⟩

/-! ## Claim C10: break and continue outside a loop -/

/-- Claim C10: a `break` or `continue` lowered while the loop stack is
empty is silently ignored — the generator state is returned unchanged (so
no branch is emitted, the block-terminated flag keeps its value and no
diagnostic is produced) and lowering continues with the placeholder
result. -/
theorem C10_break_continue (o : VarOrder) (st : Gen) (h : st.loop_stack = []) :
    gen_node o st .Break = (st, "0") ∧ gen_node o st .Continue = (st, "0") := by
  obtain ⟨f1, f2, f3, f4, f5, f6, f7, f8, f9, f10, f11, f12, f13, f14, f15, f16, f17, f18⟩ := st
  simp only [Gen.mk.injEq] at h ⊢
  subst h
  exact ⟨rfl, rfl⟩

/-- Witness for `C10_break_continue` in a fresh generator state. -/
theorem C10_witness :
    gen_node idv ({} : Gen) .Break = (({} : Gen), "0") ∧
    gen_node idv ({} : Gen) .Continue = (({} : Gen), "0") :=
  C10_break_continue idv {} rfl

end Brain
